import Mathlib

/-!
# In-memory key/value store with nested transactions

A shallow embedding of `src/db/db.go` and `src/utils/error.go`.

* The package variable `Storage` (a Go `map[string]string`) is a finite map
  from strings to strings; two maps are equal exactly when they hold the same
  keys with the same values.
* The package variable `Transactions` is a list of transactions, innermost
  last; a transaction is the list of its registered commands, oldest first.
* Go methods that mutate the package variables become functions that take the
  old value and return the new one.
* A command is a Go pointer: the object registered by `AddCommand` is the very
  object `Execute` later writes `oldValue` and `exists` into.  Commands are
  values here, so `Run` copies the executed command back over the entry that
  `AddCommand` appended (`NestedTransactions.writeBack`).
-/

namespace Db

/-! ## Library functions used by the source -/

/-- Go `strings.Split(s, " ")` on a list of characters: the pieces between
consecutive single spaces; the empty input gives one empty piece. -/
def splitSpace : List Char → List (List Char)
  | [] => [[]]
  | c :: cs =>
    if c = ' ' then [] :: splitSpace cs
    else
      match splitSpace cs with
      | [] => [[c]]
      | t :: ts => (c :: t) :: ts

/-- Go `strings.Split(line, " ")`. -/
def Split (line : String) : List String :=
  (splitSpace line.data).map String.mk

theorem splitSpace_ne_nil (l : List Char) : splitSpace l ≠ [] := by
  cases l with
  | nil => simp [splitSpace]
  | cons c cs =>
    unfold splitSpace
    split_ifs
    · simp
    · split <;> simp

theorem Split_ne_nil (line : String) : Split line ≠ [] := by
  simp [Split, splitSpace_ne_nil]

/-- Go `strings.ToUpper` with the case table cut down to the ASCII letters:
`a`..`z` go to `A`..`Z`, every other character is kept.  Go's table
(`unicode.ToUpper`) also maps letters outside ASCII; `ToUpperWith` and
`RunWith` below take the whole table, and `ToUpper` and `Run` are what they
give on the table `Char.toUpper` (`ToUpper_eq_ToUpperWith`, `Run_eq_RunWith`). -/
def ToUpper (s : String) : String :=
  String.mk (s.data.map Char.toUpper)

/-- Go `strconv.Itoa` on a count: the count of `NumEqualTo.Execute` starts at 0,
only grows, and is at most the number of entries of the map, so it is a
natural number far below the range of a Go `int`. -/
def Itoa (n : Nat) : String :=
  Nat.repr n

/-! ## `src/utils/error.go` -/

/-- A Go `error` value made by `errors.New`: its message. -/
structure GoError where
  msg : String
  deriving DecidableEq

def ErrNotEnoughArguments : GoError := ⟨"not enough arguments, please refer to help"⟩
def ErrNoTransaction : GoError := ⟨"no transaction, please refer to help"⟩
def ErrUnknownCommand : GoError := ⟨"unknown command, please refer to help"⟩

/-- The function `utils.NotEnoughArguments`: `fmt.Sprintf("ErrNotEnoughArguments (%s): %s", ...)`. -/
def NotEnoughArguments (cmd : String) : String :=
  "ErrNotEnoughArguments (" ++ cmd ++ "): " ++ ErrNotEnoughArguments.msg

/-- The function `utils.UnknownCommand`: `fmt.Sprintf("ErrUnknownCommand (%s): %s", ...)`. -/
def UnknownCommand (cmd : String) : String :=
  "ErrUnknownCommand (" ++ cmd ++ "): " ++ ErrUnknownCommand.msg

/-! ## `src/db/db.go`: data -/

/-- The constant `Commands`, the help text. -/
def Commands : String :=
  "Supported commands:\n" ++
  "SET <name> <value> – Set the variable name to the value <value>. Neither variable names nor values will contain spaces.\n" ++
  "(Name and value are case-sensitive strings with no spaces)\n\n" ++
  "GET <name> – Print out the value of the variable name, or NULL if that variable is not set.\n" ++
  "UNSET <name> – Unset the variable name, making it just like that variable was never set.\n" ++
  "NUMEQUALTO <value> – Print out the number of variables that are currently set to value. If no variables equal that value, print 0.\n" ++
  "END – Exit the program. Your program will always receive this as its last command. Commands will be fed to your program one at a time, with each command on its own line. Any output that your program generates should end with a newline character.\n\n" ++
  "Supported transactions:\n" ++
  "BEGIN – Open a new transaction block. Transaction blocks can be nested; a BEGIN can be issued inside of an existing block.\n" ++
  "ROLLBACK – Undo all of the commands issued in the most recent transaction block, and close the block. Print nothing if successful, or print NO TRANSACTION if no transaction is in progress.\n" ++
  "COMMIT – Close all open transaction blocks, permanently applying the changes made in them. Print nothing if successful, or print NO TRANSACTION if no transaction is in progress."

/-- The type of the package variable `Storage`, a `map[string]string`. -/
abbrev Store := Finmap (fun _ : String => String)

/-- The struct `Set`. -/
structure Set where
  Key : String
  Value : String
  oldValue : String := ""
  «exists» : Bool := false
  deriving DecidableEq

/-- The struct `Get`. -/
structure Get where
  Key : String
  deriving DecidableEq

/-- The struct `Unset`. -/
structure Unset where
  Key : String
  oldValue : String := ""
  «exists» : Bool := false
  deriving DecidableEq

/-- The struct `NumEqualTo`. -/
structure NumEqualTo where
  Value : String
  deriving DecidableEq

/-- The interface `Executable`: the four command types that implement it. -/
inductive Executable where
  | set (c : Set)
  | get (c : Get)
  | unset (c : Unset)
  | numEqualTo (c : NumEqualTo)
  deriving DecidableEq

/-- The struct `Transaction`: the registered commands, oldest first. -/
structure Transaction where
  commands : List Executable := []
  deriving DecidableEq

/-- The struct `NestedTransactions`: the open transactions, innermost last. -/
structure NestedTransactions where
  transactions : List Transaction := []
  deriving DecidableEq

/-! ## Commands -/

/-- The method `(*Set).Execute`: the result string (always empty), the command
with its snapshot fields, and the new storage. -/
def Set.Execute (cmd : Set) (Storage : Store) : String × Set × Store :=
  let cmd1 : Set :=
    match Storage.lookup cmd.Key with
    | some oldValue => { cmd with oldValue := oldValue, «exists» := true }
    | none => cmd
  ("", cmd1, Storage.insert cmd.Key cmd.Value)

/-- The method `(*Set).Undo`. -/
def Set.Undo (cmd : Set) (Storage : Store) : Store :=
  if cmd.«exists» then Storage.insert cmd.Key cmd.oldValue
  else Storage.erase cmd.Key

/-- The method `(*Unset).Execute`. -/
def Unset.Execute (cmd : Unset) (Storage : Store) : String × Unset × Store :=
  match Storage.lookup cmd.Key with
  | some oldValue =>
    ("", { cmd with «exists» := true, oldValue := oldValue }, Storage.erase cmd.Key)
  | none => ("", cmd, Storage)

/-- The method `(*Unset).Undo`. -/
def Unset.Undo (cmd : Unset) (Storage : Store) : Store :=
  if cmd.«exists» then Storage.insert cmd.Key cmd.oldValue
  else Storage

/-- The method `(*Get).Execute`. -/
def Get.Execute (cmd : Get) (Storage : Store) : String :=
  match Storage.lookup cmd.Key with
  | some value => value
  | none => "NULL"

/-- The method `(*Get).Undo`: nothing. -/
def Get.Undo (_cmd : Get) (Storage : Store) : Store := Storage

/-- One round of the loop of `(*NumEqualTo).Execute`. -/
def NumEqualTo.step (cmd : NumEqualTo) (count : Nat) (_key value : String) : Nat :=
  if value = cmd.Value then count + 1 else count

theorem NumEqualTo.step_comm (cmd : NumEqualTo) (d : Nat) (a₁ b₁ a₂ b₂ : String) :
    cmd.step (cmd.step d a₁ b₁) a₂ b₂ = cmd.step (cmd.step d a₂ b₂) a₁ b₁ := by
  unfold NumEqualTo.step
  split_ifs <;> rfl

/-- The loop of `(*NumEqualTo).Execute`: `count` after ranging over every
entry of the map once (the order of a Go map range is unspecified and does
not matter for the count). -/
def NumEqualTo.count (cmd : NumEqualTo) (Storage : Store) : Nat :=
  Storage.foldl cmd.step cmd.step_comm 0

/-- The method `(*NumEqualTo).Execute`. -/
def NumEqualTo.Execute (cmd : NumEqualTo) (Storage : Store) : String :=
  Itoa (cmd.count Storage)

/-- The method `(*NumEqualTo).Undo`: nothing. -/
def NumEqualTo.Undo (_cmd : NumEqualTo) (Storage : Store) : Store := Storage

/-- Dynamic dispatch of `Execute` through the interface. -/
def Executable.Execute : Executable → Store → String × Executable × Store
  | .set c, Storage =>
    let r := c.Execute Storage
    (r.1, .set r.2.1, r.2.2)
  | .get c, Storage => (c.Execute Storage, .get c, Storage)
  | .unset c, Storage =>
    let r := c.Execute Storage
    (r.1, .unset r.2.1, r.2.2)
  | .numEqualTo c, Storage => (c.Execute Storage, .numEqualTo c, Storage)

/-- Dynamic dispatch of `Undo` through the interface. -/
def Executable.Undo : Executable → Store → Store
  | .set c, Storage => c.Undo Storage
  | .get c, Storage => c.Undo Storage
  | .unset c, Storage => c.Undo Storage
  | .numEqualTo c, Storage => c.Undo Storage

/-! ## Transactions -/

/-- The method `(*Transaction).AddCommand`. -/
def Transaction.AddCommand (tr : Transaction) (cmd : Executable) : Transaction :=
  { commands := tr.commands ++ [cmd] }

/-- The method `(*Transaction).Rollback`: `Undo` of every command, from the
last index down to index 0. -/
def Transaction.Rollback (tr : Transaction) (Storage : Store) : Store :=
  tr.commands.foldr (fun cmd acc => cmd.Undo acc) Storage

/-- The method `(*NestedTransactions).getLast`. -/
def NestedTransactions.getLast (t : NestedTransactions) : Except GoError Transaction :=
  if h : t.transactions.length = 0 then .error ErrNoTransaction
  else
    let lastTrIndex := t.transactions.length - 1
    .ok (t.transactions.get ⟨lastTrIndex, by omega⟩)

/-- The method `(*NestedTransactions).AddCommand`: the command is appended to
the log of the last transaction, which the stack holds by pointer; with no
transaction open nothing happens. -/
def NestedTransactions.AddCommand (t : NestedTransactions) (cmd : Executable) :
    NestedTransactions :=
  match t.getLast with
  | .error _ => t
  | .ok tr =>
    { transactions := t.transactions.set (t.transactions.length - 1) (tr.AddCommand cmd) }

/-- The command registered last is the object `Execute` has just written its
snapshot into: the last entry of the innermost log is replaced by the executed
command.  With no transaction open the command was not registered and nothing
happens. -/
def NestedTransactions.writeBack (t : NestedTransactions) (cmd : Executable) :
    NestedTransactions :=
  match t.getLast with
  | .error _ => t
  | .ok tr =>
    { transactions := t.transactions.set (t.transactions.length - 1)
        { commands := tr.commands.dropLast ++ [cmd] } }

/-- The method `(*NestedTransactions).Begin` (the returned pointer is not used by `Run`). -/
def NestedTransactions.Begin (t : NestedTransactions) : NestedTransactions :=
  { transactions := t.transactions ++ [{ commands := [] }] }

/-- The method `(*NestedTransactions).popLast`: the error or the popped
transaction, and the stack afterwards. -/
def NestedTransactions.popLast (t : NestedTransactions) :
    Except GoError Transaction × NestedTransactions :=
  if h : t.transactions.length = 0 then (.error ErrNoTransaction, t)
  else
    let lastTrIndex := t.transactions.length - 1
    (.ok (t.transactions.get ⟨lastTrIndex, by omega⟩),
      { transactions := t.transactions.take lastTrIndex })

/-- The method `(*NestedTransactions).Commit`: the returned error (if any) and
the stack afterwards. -/
def NestedTransactions.Commit (t : NestedTransactions) : Option GoError × NestedTransactions :=
  if t.transactions.length = 0 then (some ErrNoTransaction, t)
  else (none, { transactions := [] })

/-- The method `(*NestedTransactions).Rollback`: the returned error (if any),
the stack and the storage afterwards. -/
def NestedTransactions.Rollback (t : NestedTransactions) (Storage : Store) :
    Option GoError × NestedTransactions × Store :=
  match t.popLast with
  | (.error err, t1) => (some err, t1, Storage)
  | (.ok tr, t1) => (none, t1, tr.Rollback Storage)

/-! ## The entry point -/

/-- The two package variables. -/
structure State where
  Storage : Store := ∅
  Transactions : NestedTransactions := {}
  deriving DecidableEq

/-- What one call of `Run` does besides changing the package variables:
either the process exits (`os.Exit`), or the call returns its two values;
`stdout` lists the lines written with `fmt.Println`. -/
structure Reply where
  exited : Bool := false
  result : String := ""
  err : Option GoError := none
  stdout : List String := []
  deriving DecidableEq

/-- The `switch cmd` statement of `Run`, on the upper-cased keyword `cmd` and
the remaining tokens `params`.  Every `params[i]` stands behind the length
test that guards it in the source. -/
def Run.switch (st : State) (cmd : String) (params : List String) : Reply × State :=
  if cmd = "END" then ({ exited := true }, st)
  else if cmd = "?" then ({}, st)
  else if cmd = "HELP" then ({ stdout := [Commands] }, st)
  else if cmd = "GET" then
    if h : params.length < 1 then ({ result := NotEnoughArguments cmd }, st)
    else
      let c : Get := { Key := params.get ⟨0, by omega⟩ }
      ({ stdout := [c.Execute st.Storage] }, st)
  else if cmd = "SET" then
    if h : params.length < 2 then ({ result := NotEnoughArguments cmd }, st)
    else
      let c : Set := { Key := params.get ⟨0, by omega⟩, Value := params.get ⟨1, by omega⟩ }
      let t1 := st.Transactions.AddCommand (.set c)
      let r := c.Execute st.Storage
      ({}, { Storage := r.2.2, Transactions := t1.writeBack (.set r.2.1) })
  else if cmd = "NUMEQUALTO" then
    if h : params.length < 1 then ({ result := NotEnoughArguments cmd }, st)
    else
      let c : NumEqualTo := { Value := params.get ⟨0, by omega⟩ }
      ({ stdout := [c.Execute st.Storage] }, st)
  else if cmd = "UNSET" then
    if h : params.length < 1 then ({ result := NotEnoughArguments cmd }, st)
    else
      let c : Unset := { Key := params.get ⟨0, by omega⟩ }
      let t1 := st.Transactions.AddCommand (.unset c)
      let r := c.Execute st.Storage
      ({}, { Storage := r.2.2, Transactions := t1.writeBack (.unset r.2.1) })
  else if cmd = "BEGIN" then ({}, { st with Transactions := st.Transactions.Begin })
  else if cmd = "ROLLBACK" then
    let r := st.Transactions.Rollback st.Storage
    match r.1 with
    | some err => ({ stdout := [err.msg] }, { Storage := r.2.2, Transactions := r.2.1 })
    | none => ({}, { Storage := r.2.2, Transactions := r.2.1 })
  else if cmd = "COMMIT" then
    let r := st.Transactions.Commit
    match r.1 with
    | some err => ({ stdout := [err.msg] }, { st with Transactions := r.2 })
    | none => ({}, { st with Transactions := r.2 })
  else ({ result := UnknownCommand cmd }, st)

/-- The function `Run`: `args[0]` is the first token of the split line (a
split line is never empty, `Split_ne_nil`), `args[1:]` the rest. -/
def Run (st : State) (line : String) : Reply × State :=
  match h : Split line with
  | [] => absurd h (Split_ne_nil line)
  | a0 :: params => Run.switch st (ToUpper a0) params

/-- The package variables after feeding the lines to `Run` one after the other. -/
def runLines (st : State) (lines : List String) : State :=
  lines.foldl (fun s line => (Run s line).2) st

/-- A line that `Run` treats as a `SET` or an `UNSET` with enough arguments:
its first token upper-cases to `SET` and at least two tokens follow, or it
upper-cases to `UNSET` and at least one token follows. -/
def isMutation (line : String) : Bool :=
  match Split line with
  | [] => false
  | a0 :: params =>
    (ToUpper a0 == "SET" && decide (2 ≤ params.length)) ||
      (ToUpper a0 == "UNSET" && decide (1 ≤ params.length))

/-- The string has no space in it. -/
def spaceFree (s : String) : Prop := ' ' ∉ s.data

instance (s : String) : Decidable (spaceFree s) := by
  unfold spaceFree; infer_instance

/-- The number of keys of the store whose current value is `v`, as the
specification words it: the keys `k` with `lookup k = some v`, counted once each. -/
def numKeysWithValue (s : Store) (v : String) : Nat :=
  (s.keys.filter (fun k => s.lookup k = some v)).card

/-- The keywords `Run` has a `case` for. -/
def keywords : List String :=
  ["END", "?", "HELP", "GET", "SET", "NUMEQUALTO", "UNSET", "BEGIN", "ROLLBACK", "COMMIT"]

/-- The key a command names: the `Key` of a `Set`, a `Get` or an `Unset`; a
`NumEqualTo` names none. -/
def Executable.key? : Executable → Option String
  | .set c => some c.Key
  | .get c => some c.Key
  | .unset c => some c.Key
  | .numEqualTo _ => none

/-- The command is a `Set` or an `Unset`. -/
def Executable.isMutating : Executable → Bool
  | .set _ => true
  | .unset _ => true
  | .get _ => false
  | .numEqualTo _ => false

/-- Every command held in the log of any open transaction is a `Set` or an `Unset`. -/
def logsMutating (t : NestedTransactions) : Prop :=
  ∀ tr ∈ t.transactions, ∀ c ∈ tr.commands, c.isMutating = true

/-- The states the program can be in: the initial one (empty `Storage`, no
transaction), and every state `Run` leaves behind when called in such a state. -/
inductive Reachable : State → Prop
  | init : Reachable {}
  | step (st : State) (line : String) : Reachable st → Reachable (Run st line).2

/-- Go `strings.ToUpper` over a case table: every character `c` of the string
is replaced by `upper c`.  The table `upper` stands for `unicode.ToUpper` of
the Go library, which is no part of this repository. -/
def ToUpperWith (upper : Char → Char) (s : String) : String :=
  String.mk (s.data.map upper)

/-- The function `Run` over a case table: `args[0]` is upper-cased with the
table `upper`, everything else is as in `Run`. -/
def RunWith (upper : Char → Char) (st : State) (line : String) : Reply × State :=
  match h : Split line with
  | [] => absurd h (Split_ne_nil line)
  | a0 :: params => Run.switch st (ToUpperWith upper a0) params

/-- The two strings are the same letters up to letter case, for the case table
`upper`: they have the same length, and at every position the two characters
have the same upper-case form (`s` and `S`; `é` and `É` when the table maps
`é` to `É`). -/
def caseVariant (upper : Char → Char) (a b : String) : Prop :=
  List.Forall₂ (fun c d => upper c = upper d) a.data b.data

instance (upper : Char → Char) (a b : String) : Decidable (caseVariant upper a b) := by
  unfold caseVariant; infer_instance

/-- The number a string of decimal digits writes: the digits are read from the
left, each one adding its value (its code minus the code 48 of `0`) to ten
times what was read before. -/
def decimalValue (s : String) : Nat :=
  s.data.foldl (fun acc c => 10 * acc + (c.toNat - 48)) 0

/-- A line that `Run` treats as a `GET` or a `NUMEQUALTO` with enough
arguments: its first token upper-cases to `GET` or to `NUMEQUALTO` and at
least one token follows. -/
def isQuery (line : String) : Bool :=
  match Split line with
  | [] => false
  | a0 :: params =>
    (ToUpper a0 == "GET" || ToUpper a0 == "NUMEQUALTO") && decide (1 ≤ params.length)

/-- A line that `Run` treats as a `BEGIN`: its first token upper-cases to `BEGIN`. -/
def isBegin (line : String) : Bool :=
  match Split line with
  | [] => false
  | a0 :: _ => ToUpper a0 == "BEGIN"

/-- The store after rolling back every transaction of the stack, innermost
(last) first. -/
def unwind (ts : List Transaction) (s : Store) : Store :=
  ts.foldr (fun tr acc => tr.Rollback acc) s

/-! ## The same code with every index expression checked

In the definitions above each Go index expression carries a proof that it is
in range.  Below, the same functions are written with the index expressions as
Go runs them: `xs[i]` and `xs[lo:hi]` are looked up at run time, and `none`
stands for the panic of an access out of range. -/

/-- Go `xs[i]`: `none` when `i` is not below `len(xs)`. -/
def index {α : Type} (xs : List α) (i : Nat) : Option α :=
  xs.get? i

/-- Go `xs[lo:hi]`: `none` unless `lo ≤ hi ≤ len(xs)`. -/
def slice {α : Type} (xs : List α) (lo hi : Nat) : Option (List α) :=
  if lo ≤ hi ∧ hi ≤ xs.length then some ((xs.take hi).drop lo) else none

/-- The loop of `(*Transaction).Rollback` with `tr.commands[i]` checked; the
argument is `i + 1`, so that the loop test `i >= 0` is that it is not zero. -/
def Transaction.RollbackFrom (tr : Transaction) : Nat → Store → Option Store
  | 0, Storage => some Storage
  | i + 1, Storage =>
    match index tr.commands i with
    | none => none
    | some cmd => tr.RollbackFrom i (cmd.Undo Storage)

/-- The method `(*Transaction).Rollback`, index checked: `i` starts at
`len(tr.commands) - 1`. -/
def Transaction.RollbackChecked (tr : Transaction) (Storage : Store) : Option Store :=
  tr.RollbackFrom tr.commands.length Storage

/-- The method `(*NestedTransactions).getLast`, index checked. -/
def NestedTransactions.getLastChecked (t : NestedTransactions) :
    Option (Except GoError Transaction) :=
  if t.transactions.length = 0 then some (.error ErrNoTransaction)
  else
    let lastTrIndex := t.transactions.length - 1
    match index t.transactions lastTrIndex with
    | none => none
    | some tr => some (.ok tr)

/-- The method `(*NestedTransactions).AddCommand` over the checked `getLast`. -/
def NestedTransactions.AddCommandChecked (t : NestedTransactions) (cmd : Executable) :
    Option NestedTransactions :=
  match t.getLastChecked with
  | none => none
  | some (.error _) => some t
  | some (.ok tr) =>
    some { transactions := t.transactions.set (t.transactions.length - 1) (tr.AddCommand cmd) }

/-- The method `(*NestedTransactions).popLast`, index and slice checked. -/
def NestedTransactions.popLastChecked (t : NestedTransactions) :
    Option (Except GoError Transaction × NestedTransactions) :=
  if t.transactions.length = 0 then some (.error ErrNoTransaction, t)
  else
    let lastTrIndex := t.transactions.length - 1
    match index t.transactions lastTrIndex, slice t.transactions 0 lastTrIndex with
    | some tr, some transactions => some (.ok tr, { transactions := transactions })
    | _, _ => none

/-- The method `(*NestedTransactions).Rollback` over the checked `popLast` and
the checked loop. -/
def NestedTransactions.RollbackChecked (t : NestedTransactions) (Storage : Store) :
    Option (Option GoError × NestedTransactions × Store) :=
  match t.popLastChecked with
  | none => none
  | some (.error err, t1) => some (some err, t1, Storage)
  | some (.ok tr, t1) =>
    match tr.RollbackChecked Storage with
    | none => none
    | some s1 => some (none, t1, s1)

/-- The `switch cmd` statement of `Run` with `params[0]` and `params[1]` checked. -/
def Run.switchChecked (st : State) (cmd : String) (params : List String) :
    Option (Reply × State) :=
  if cmd = "END" then some ({ exited := true }, st)
  else if cmd = "?" then some ({}, st)
  else if cmd = "HELP" then some ({ stdout := [Commands] }, st)
  else if cmd = "GET" then
    if params.length < 1 then some ({ result := NotEnoughArguments cmd }, st)
    else
      match index params 0 with
      | none => none
      | some p0 => some ({ stdout := [(Get.mk p0).Execute st.Storage] }, st)
  else if cmd = "SET" then
    if params.length < 2 then some ({ result := NotEnoughArguments cmd }, st)
    else
      match index params 0, index params 1 with
      | some p0, some p1 =>
        match st.Transactions.AddCommandChecked (.set (Set.mk p0 p1 "" false)) with
        | none => none
        | some t1 =>
          let r := (Set.mk p0 p1 "" false).Execute st.Storage
          some ({}, { Storage := r.2.2, Transactions := t1.writeBack (.set r.2.1) })
      | _, _ => none
  else if cmd = "NUMEQUALTO" then
    if params.length < 1 then some ({ result := NotEnoughArguments cmd }, st)
    else
      match index params 0 with
      | none => none
      | some p0 => some ({ stdout := [(NumEqualTo.mk p0).Execute st.Storage] }, st)
  else if cmd = "UNSET" then
    if params.length < 1 then some ({ result := NotEnoughArguments cmd }, st)
    else
      match index params 0 with
      | none => none
      | some p0 =>
        match st.Transactions.AddCommandChecked (.unset (Unset.mk p0 "" false)) with
        | none => none
        | some t1 =>
          let r := (Unset.mk p0 "" false).Execute st.Storage
          some ({}, { Storage := r.2.2, Transactions := t1.writeBack (.unset r.2.1) })
  else if cmd = "BEGIN" then some ({}, { st with Transactions := st.Transactions.Begin })
  else if cmd = "ROLLBACK" then
    match st.Transactions.RollbackChecked st.Storage with
    | none => none
    | some r =>
      match r.1 with
      | some err => some ({ stdout := [err.msg] }, { Storage := r.2.2, Transactions := r.2.1 })
      | none => some ({}, { Storage := r.2.2, Transactions := r.2.1 })
  else if cmd = "COMMIT" then
    let r := st.Transactions.Commit
    match r.1 with
    | some err => some ({ stdout := [err.msg] }, { st with Transactions := r.2 })
    | none => some ({}, { st with Transactions := r.2 })
  else some ({ result := UnknownCommand cmd }, st)

/-- The function `Run` with `args[0]` and `args[1:]` checked. -/
def RunChecked (st : State) (line : String) : Option (Reply × State) :=
  let args := Split line
  match index args 0, slice args 1 args.length with
  | some a0, some params => Run.switchChecked st (ToUpper a0) params
  | _, _ => none

/-! ## Splitting lines -/

theorem splitSpace_append_space (a b : List Char) :
    splitSpace (a ++ ' ' :: b) = splitSpace a ++ splitSpace b := by
  induction a with
  | nil => simp [splitSpace]
  | cons c cs ih =>
    by_cases hc : c = ' '
    · simp [splitSpace, hc, ih]
    · have hne := splitSpace_ne_nil cs
      cases hcs : splitSpace cs with
      | nil => exact absurd hcs hne
      | cons t ts => simp [splitSpace, hc, ih, hcs]

theorem splitSpace_of_not_mem (l : List Char) (h : ' ' ∉ l) : splitSpace l = [l] := by
  induction l with
  | nil => simp [splitSpace]
  | cons c cs ih =>
    simp only [List.mem_cons, not_or] at h
    have hc : c ≠ ' ' := fun e => h.1 e.symm
    simp [splitSpace, hc, ih h.2]

theorem Split_word (w : String) (h : spaceFree w) : Split w = [w] := by
  simp [Split, splitSpace_of_not_mem w.data h]

theorem Split_append_space (a b : String) : Split (a ++ " " ++ b) = Split a ++ Split b := by
  have h : (a ++ " " ++ b).data = a.data ++ ' ' :: b.data := by
    simp [String.data_append]
  simp [Split, h, splitSpace_append_space]

theorem Split_one (kw k : String) (hkw : spaceFree kw) (hk : spaceFree k) :
    Split (kw ++ " " ++ k) = [kw, k] := by
  rw [Split_append_space, Split_word kw hkw, Split_word k hk]; rfl

theorem Split_two (kw k v : String) (hkw : spaceFree kw) (hk : spaceFree k)
    (hv : spaceFree v) : Split (kw ++ " " ++ k ++ " " ++ v) = [kw, k, v] := by
  rw [Split_append_space, Split_one kw k hkw hk, Split_word v hv]; rfl

/-! ## The transaction stack as a list -/

theorem AddCommand_nil (cmd : Executable) :
    NestedTransactions.AddCommand ⟨[]⟩ cmd = ⟨[]⟩ := by
  simp [NestedTransactions.AddCommand, NestedTransactions.getLast]

theorem AddCommand_snoc (ts : List Transaction) (tr : Transaction) (cmd : Executable) :
    NestedTransactions.AddCommand ⟨ts ++ [tr]⟩ cmd = ⟨ts ++ [tr.AddCommand cmd]⟩ := by
  simp [NestedTransactions.AddCommand, NestedTransactions.getLast]

theorem writeBack_nil (cmd : Executable) :
    NestedTransactions.writeBack ⟨[]⟩ cmd = ⟨[]⟩ := by
  simp [NestedTransactions.writeBack, NestedTransactions.getLast]

theorem writeBack_snoc (ts : List Transaction) (tr : Transaction) (c cmd : Executable) :
    NestedTransactions.writeBack ⟨ts ++ [tr.AddCommand c]⟩ cmd = ⟨ts ++ [tr.AddCommand cmd]⟩ := by
  simp [NestedTransactions.writeBack, NestedTransactions.getLast, Transaction.AddCommand]

/-- Registering a command and then copying its executed form back is
registering the executed form. -/
theorem writeBack_AddCommand (t : NestedTransactions) (c cmd : Executable) :
    (t.AddCommand c).writeBack cmd = t.AddCommand cmd := by
  obtain ⟨ts⟩ := t
  rcases List.eq_nil_or_concat ts with h | ⟨ts1, tr, h⟩
  · subst h; rw [AddCommand_nil, AddCommand_nil, writeBack_nil]
  · subst h
    rw [List.concat_eq_append, AddCommand_snoc, AddCommand_snoc, writeBack_snoc]

theorem popLast_nil : NestedTransactions.popLast ⟨[]⟩ = (.error ErrNoTransaction, ⟨[]⟩) := by
  simp [NestedTransactions.popLast]

theorem popLast_snoc (ts : List Transaction) (tr : Transaction) :
    NestedTransactions.popLast ⟨ts ++ [tr]⟩ = (.ok tr, ⟨ts⟩) := by
  simp [NestedTransactions.popLast]

theorem Rollback_nil (s : Store) :
    NestedTransactions.Rollback ⟨[]⟩ s = (some ErrNoTransaction, ⟨[]⟩, s) := by
  simp [NestedTransactions.Rollback, popLast_nil]

theorem Rollback_snoc (ts : List Transaction) (tr : Transaction) (s : Store) :
    NestedTransactions.Rollback ⟨ts ++ [tr]⟩ s = (none, ⟨ts⟩, tr.Rollback s) := by
  simp [NestedTransactions.Rollback, popLast_snoc]

theorem Transaction.Rollback_AddCommand (tr : Transaction) (cmd : Executable) (s : Store) :
    (tr.AddCommand cmd).Rollback s = tr.Rollback (cmd.Undo s) := by
  simp [Transaction.Rollback, Transaction.AddCommand, List.foldr_append]

/-! ## Executing and undoing one command -/

theorem Set.Execute_storage (cmd : Set) (s : Store) :
    (cmd.Execute s).2.2 = s.insert cmd.Key cmd.Value := rfl

theorem Set.Undo_Execute_fresh (cmd : Set) (h : cmd.«exists» = false) (s : Store) :
    (cmd.Execute s).2.1.Undo (cmd.Execute s).2.2 = s := by
  apply Finmap.ext_lookup
  intro x
  cases hl : s.lookup cmd.Key with
  | none =>
    by_cases hx : x = cmd.Key
    · subst hx
      simp [Set.Execute, Set.Undo, hl, h]
    · simp [Set.Execute, Set.Undo, hl, h, Finmap.lookup_erase_ne hx,
        Finmap.lookup_insert_of_ne _ hx]
  | some old =>
    by_cases hx : x = cmd.Key
    · subst hx
      simp [Set.Execute, Set.Undo, hl]
    · simp [Set.Execute, Set.Undo, hl, Finmap.lookup_insert_of_ne _ hx]

theorem Unset.Undo_Execute_unset_fresh (cmd : Unset) (h : cmd.«exists» = false) (s : Store) :
    (cmd.Execute s).2.1.Undo (cmd.Execute s).2.2 = s := by
  cases hl : s.lookup cmd.Key with
  | none => simp [Unset.Execute, Unset.Undo, hl, h]
  | some old =>
    apply Finmap.ext_lookup
    intro x
    by_cases hx : x = cmd.Key
    · subst hx
      simp [Unset.Execute, Unset.Undo, hl]
    · simp [Unset.Execute, Unset.Undo, hl, Finmap.lookup_insert_of_ne _ hx,
        Finmap.lookup_erase_ne hx]

/-! ## `Run` on each kind of line -/

theorem Run_eq_switch (st : State) (line a0 : String) (params : List String)
    (h : Split line = a0 :: params) : Run st line = Run.switch st (ToUpper a0) params := by
  unfold Run
  split
  · rename_i h0; exact absurd h0 (Split_ne_nil line)
  · rename_i b0 ps h0
    rw [h] at h0
    cases h0
    rfl

theorem RunWith_eq_switch (upper : Char → Char) (st : State) (line a0 : String)
    (params : List String) (h : Split line = a0 :: params) :
    RunWith upper st line = Run.switch st (ToUpperWith upper a0) params := by
  unfold RunWith
  split
  · rename_i h0; exact absurd h0 (Split_ne_nil line)
  · rename_i b0 ps h0
    rw [h] at h0
    cases h0
    rfl

theorem ToUpper_eq_ToUpperWith (s : String) : ToUpper s = ToUpperWith Char.toUpper s := rfl

theorem Run_eq_RunWith (st : State) (line : String) :
    Run st line = RunWith Char.toUpper st line := by
  cases hs : Split line with
  | nil => exact absurd hs (Split_ne_nil line)
  | cons a0 params =>
    rw [Run_eq_switch st line a0 params hs, RunWith_eq_switch _ st line a0 params hs,
      ToUpper_eq_ToUpperWith]

/-- On a line whose first token the table `upper` upper-cases as `Char.toUpper`
does (a token of ASCII characters, for Go's table), `RunWith upper` is `Run`. -/
theorem RunWith_eq_Run_of_agree (upper : Char → Char) (st : State) (line a0 : String)
    (params : List String) (h : Split line = a0 :: params)
    (hu : ∀ c ∈ a0.data, upper c = c.toUpper) : RunWith upper st line = Run st line := by
  rw [Run_eq_switch st line a0 params h, RunWith_eq_switch _ st line a0 params h]
  have e : ToUpperWith upper a0 = ToUpper a0 := by
    unfold ToUpperWith ToUpper
    rw [List.map_congr_left hu]
  rw [e]

theorem switch_SET (st : State) (k v : String) (rest : List String) :
    Run.switch st "SET" (k :: v :: rest) =
      ({}, { Storage := st.Storage.insert k v,
             Transactions := st.Transactions.AddCommand
               (.set ((Set.mk k v "" false).Execute st.Storage).2.1) }) := by
  simp [Run.switch, writeBack_AddCommand, Set.Execute_storage]

theorem switch_UNSET (st : State) (k : String) (rest : List String) :
    Run.switch st "UNSET" (k :: rest) =
      ({}, { Storage := ((Unset.mk k "" false).Execute st.Storage).2.2,
             Transactions := st.Transactions.AddCommand
               (.unset ((Unset.mk k "" false).Execute st.Storage).2.1) }) := by
  simp [Run.switch, writeBack_AddCommand]

theorem switch_GET (st : State) (k : String) (rest : List String) :
    Run.switch st "GET" (k :: rest) =
      ({ stdout := [(Get.mk k).Execute st.Storage] }, st) := by
  simp [Run.switch]

theorem switch_BEGIN (st : State) (params : List String) :
    Run.switch st "BEGIN" params = ({}, { st with Transactions := st.Transactions.Begin }) := by
  simp [Run.switch]

theorem switch_ROLLBACK_snoc (s : Store) (ts : List Transaction) (tr : Transaction)
    (params : List String) :
    Run.switch ⟨s, ⟨ts ++ [tr]⟩⟩ "ROLLBACK" params = ({}, ⟨tr.Rollback s, ⟨ts⟩⟩) := by
  simp [Run.switch, Rollback_snoc]

theorem switch_ROLLBACK_nil (s : Store) (params : List String) :
    Run.switch ⟨s, ⟨[]⟩⟩ "ROLLBACK" params =
      ({ stdout := [ErrNoTransaction.msg] }, ⟨s, ⟨[]⟩⟩) := by
  simp [Run.switch, Rollback_nil]

theorem switch_COMMIT_snoc (s : Store) (ts : List Transaction) (tr : Transaction)
    (params : List String) :
    Run.switch ⟨s, ⟨ts ++ [tr]⟩⟩ "COMMIT" params = ({}, ⟨s, ⟨[]⟩⟩) := by
  simp [Run.switch, NestedTransactions.Commit]

theorem Run_BEGIN (st : State) :
    Run st "BEGIN" = ({}, { st with Transactions := st.Transactions.Begin }) := by
  rw [Run_eq_switch st "BEGIN" "BEGIN" [] (by decide)]
  exact switch_BEGIN st []

theorem Run_ROLLBACK_snoc (s : Store) (ts : List Transaction) (tr : Transaction) :
    Run ⟨s, ⟨ts ++ [tr]⟩⟩ "ROLLBACK" = ({}, ⟨tr.Rollback s, ⟨ts⟩⟩) := by
  rw [Run_eq_switch _ "ROLLBACK" "ROLLBACK" [] (by decide)]
  exact switch_ROLLBACK_snoc s ts tr []

theorem Run_ROLLBACK_nil (s : Store) :
    Run ⟨s, ⟨[]⟩⟩ "ROLLBACK" = ({ stdout := [ErrNoTransaction.msg] }, ⟨s, ⟨[]⟩⟩) := by
  rw [Run_eq_switch _ "ROLLBACK" "ROLLBACK" [] (by decide)]
  exact switch_ROLLBACK_nil s []

theorem Run_COMMIT_snoc (s : Store) (ts : List Transaction) (tr : Transaction) :
    Run ⟨s, ⟨ts ++ [tr]⟩⟩ "COMMIT" = ({}, ⟨s, ⟨[]⟩⟩) := by
  rw [Run_eq_switch _ "COMMIT" "COMMIT" [] (by decide)]
  exact switch_COMMIT_snoc s ts tr []

theorem Run_SET (st : State) (k v : String) (hk : spaceFree k) (hv : spaceFree v) :
    Run st ("SET" ++ " " ++ k ++ " " ++ v) =
      ({}, { Storage := st.Storage.insert k v,
             Transactions := st.Transactions.AddCommand
               (.set ((Set.mk k v "" false).Execute st.Storage).2.1) }) := by
  rw [Run_eq_switch st _ "SET" [k, v] (Split_two "SET" k v (by decide) hk hv)]
  exact switch_SET st k v []

theorem Run_GET (st : State) (k : String) (hk : spaceFree k) :
    Run st ("GET" ++ " " ++ k) = ({ stdout := [(Get.mk k).Execute st.Storage] }, st) := by
  rw [Run_eq_switch st _ "GET" [k] (Split_one "GET" k (by decide) hk)]
  exact switch_GET st k []

theorem Run_mutation_snoc (s : Store) (ts : List Transaction) (tr : Transaction)
    (line : String) (h : isMutation line = true) :
    ∃ tr1 s1, (Run ⟨s, ⟨ts ++ [tr]⟩⟩ line).2 = ⟨s1, ⟨ts ++ [tr1]⟩⟩ ∧
      tr1.Rollback s1 = tr.Rollback s := by
  unfold isMutation at h
  cases hsp : Split line with
  | nil => exact absurd hsp (Split_ne_nil line)
  | cons a0 params =>
    rw [hsp] at h
    simp only [Bool.or_eq_true, Bool.and_eq_true, beq_iff_eq, decide_eq_true_eq] at h
    rw [Run_eq_switch _ line a0 params hsp]
    rcases h with ⟨hkw, hlen⟩ | ⟨hkw, hlen⟩
    · obtain ⟨k, v, rest, rfl⟩ : ∃ k v rest, params = k :: v :: rest := by
        match params, hlen with
        | k :: v :: rest, _ => exact ⟨k, v, rest, rfl⟩
      rw [hkw, switch_SET, AddCommand_snoc]
      refine ⟨_, _, rfl, ?_⟩
      rw [Transaction.Rollback_AddCommand]
      exact congrArg _ (Set.Undo_Execute_fresh (Set.mk k v "" false) rfl s)
    · obtain ⟨k, rest, rfl⟩ : ∃ k rest, params = k :: rest := by
        match params, hlen with
        | k :: rest, _ => exact ⟨k, rest, rfl⟩
      rw [hkw, switch_UNSET, AddCommand_snoc]
      refine ⟨_, _, rfl, ?_⟩
      rw [Transaction.Rollback_AddCommand]
      exact congrArg _ (Unset.Undo_Execute_unset_fresh (Unset.mk k "" false) rfl s)

theorem runLines_mutations_snoc (lines : List String) (h : ∀ l ∈ lines, isMutation l = true)
    (s : Store) (ts : List Transaction) (tr : Transaction) :
    ∃ tr1 s1, runLines ⟨s, ⟨ts ++ [tr]⟩⟩ lines = ⟨s1, ⟨ts ++ [tr1]⟩⟩ ∧
      tr1.Rollback s1 = tr.Rollback s := by
  induction lines generalizing s tr with
  | nil => exact ⟨tr, s, rfl, rfl⟩
  | cons l ls ih =>
    obtain ⟨tr1, s1, h1, hr1⟩ := Run_mutation_snoc s ts tr l (h l (List.mem_cons_self l ls))
    obtain ⟨tr2, s2, h2, hr2⟩ := ih (fun x hx => h x (List.mem_cons_of_mem l hx)) s1 tr1
    refine ⟨tr2, s2, ?_, hr2.trans hr1⟩
    simp only [runLines, List.foldl_cons] at h2 ⊢
    rw [h1]
    exact h2

theorem runLines_append (st : State) (xs ys : List String) :
    runLines st (xs ++ ys) = runLines (runLines st xs) ys := by
  simp [runLines, List.foldl_append]

theorem runLines_cons (st : State) (x : String) (xs : List String) :
    runLines st (x :: xs) = runLines (Run st x).2 xs := rfl

/-- The text `SET k v` is a `SET` line with enough arguments, whatever `k` and `v` are. -/
theorem isMutation_SET_line (k v : String) : isMutation ("SET " ++ k ++ " " ++ v) = true := by
  have h : Split ("SET " ++ k ++ " " ++ v) = "SET" :: (Split k ++ Split v) := by
    have e : "SET " ++ k ++ " " ++ v = "SET" ++ " " ++ k ++ " " ++ v := by
      congr 3
    rw [e, Split_append_space, Split_append_space, Split_word "SET" (by decide)]
    simp
  have hk : 1 ≤ (Split k).length := List.length_pos.mpr (Split_ne_nil k)
  have hv : 1 ≤ (Split v).length := List.length_pos.mpr (Split_ne_nil v)
  have h3 : ToUpper "SET" = "SET" := by decide
  simp only [isMutation, h, h3, List.length_append]
  simp
  omega

/-- The text `UNSET k` is an `UNSET` line with enough arguments, whatever `k` is. -/
theorem isMutation_UNSET_line (k : String) : isMutation ("UNSET " ++ k) = true := by
  have h : Split ("UNSET " ++ k) = "UNSET" :: Split k := by
    have e : "UNSET " ++ k = "UNSET" ++ " " ++ k := by
      congr 1
    rw [e, Split_append_space, Split_word "UNSET" (by decide)]
    simp
  have hk : 1 ≤ (Split k).length := List.length_pos.mpr (Split_ne_nil k)
  have h3 : ToUpper "UNSET" = "UNSET" := by decide
  have h4 : ¬ ("UNSET" = "SET") := by decide
  simp only [isMutation, h, h3]
  simp
  omega

/-! ## The claims -/

/-- C1: from every store and every transaction stack, `BEGIN`, then any
sequence of `SET`/`UNSET` lines with enough arguments, then `ROLLBACK`, all
through `Run`, ends in exactly the starting store and the starting stack. -/
theorem C1_begin_mutations_rollback_restores (st : State) (lines : List String)
    (h : ∀ l ∈ lines, isMutation l = true) :
    runLines st ("BEGIN" :: lines ++ ["ROLLBACK"]) = st := by
  obtain ⟨s, ⟨ts⟩⟩ := st
  rw [List.cons_append, runLines_cons, runLines_append, Run_BEGIN]
  obtain ⟨tr1, s1, h1, hr1⟩ := runLines_mutations_snoc lines h s ts { commands := [] }
  simp only [NestedTransactions.Begin]
  rw [h1, runLines_cons, Run_ROLLBACK_snoc, hr1]
  rfl

theorem C1_begin_mutations_rollback_restores_witness :
    (∀ l ∈ ["SET a 1", "UNSET b", "set a 2 x", "SET c 3"], isMutation l = true) ∧
      runLines ⟨(∅ : Store).insert "b" "0", ⟨[⟨[]⟩]⟩⟩
          ("BEGIN" :: ["SET a 1", "UNSET b", "set a 2 x", "SET c 3"] ++ ["ROLLBACK"]) =
        ⟨(∅ : Store).insert "b" "0", ⟨[⟨[]⟩]⟩⟩ :=
  ⟨by decide, C1_begin_mutations_rollback_restores _ _ (by decide)⟩

theorem Run_SET_line (st : State) (k v : String) (hk : spaceFree k) (hv : spaceFree v) :
    (Run st ("SET " ++ k ++ " " ++ v)).2 =
      { Storage := st.Storage.insert k v,
        Transactions := st.Transactions.AddCommand
          (.set ((Set.mk k v "" false).Execute st.Storage).2.1) } := by
  have e : "SET " ++ k ++ " " ++ v = "SET" ++ " " ++ k ++ " " ++ v := by
    congr 3
  rw [e, Run_SET st k v hk hv]

theorem Run_GET_line (st : State) (k : String) (hk : spaceFree k) :
    Run st ("GET " ++ k) = ({ stdout := [(Get.mk k).Execute st.Storage] }, st) := by
  have e : "GET " ++ k = "GET" ++ " " ++ k := by
    congr 1
  rw [e, Run_GET st k hk]

/-- The state after `SET k b` issued right after a `BEGIN`, when `k` holds `a`:
the new innermost transaction logs one `Set` that remembers `a`. -/
theorem runLines_BEGIN_SET (s : Store) (t : NestedTransactions) (k a b : String)
    (hk : spaceFree k) (hb : spaceFree b) (hl : s.lookup k = some a) :
    runLines ⟨s, t⟩ ["BEGIN", "SET " ++ k ++ " " ++ b] =
      ⟨s.insert k b, ⟨t.transactions ++ [⟨[.set ⟨k, b, a, true⟩]⟩]⟩⟩ := by
  rw [runLines_cons, Run_BEGIN, runLines_cons, Run_SET_line _ k b hk hb]
  simp [runLines, NestedTransactions.Begin, AddCommand_snoc, Set.Execute, hl,
    Transaction.AddCommand]

/-- C2: from every state, after `SET k v1; BEGIN; SET k v2; BEGIN; SET k v3;
ROLLBACK` the store maps `k` to `v2` and `GET k` prints `v2`; after `GET k`
and one more `ROLLBACK` the store maps `k` to `v1` and `GET k` prints `v1`. -/
theorem C2_nested_rollback_restores_intermediate (st : State) (k v1 v2 v3 : String)
    (hk : spaceFree k) (h1 : spaceFree v1) (h2 : spaceFree v2) (h3 : spaceFree v3) :
    ((runLines st ["SET " ++ k ++ " " ++ v1, "BEGIN", "SET " ++ k ++ " " ++ v2, "BEGIN",
        "SET " ++ k ++ " " ++ v3, "ROLLBACK"]).Storage.lookup k = some v2 ∧
      (Run (runLines st ["SET " ++ k ++ " " ++ v1, "BEGIN", "SET " ++ k ++ " " ++ v2, "BEGIN",
        "SET " ++ k ++ " " ++ v3, "ROLLBACK"]) ("GET " ++ k)).1.stdout = [v2]) ∧
    ((runLines st ["SET " ++ k ++ " " ++ v1, "BEGIN", "SET " ++ k ++ " " ++ v2, "BEGIN",
        "SET " ++ k ++ " " ++ v3, "ROLLBACK", "GET " ++ k, "ROLLBACK"]).Storage.lookup k
          = some v1 ∧
      (Run (runLines st ["SET " ++ k ++ " " ++ v1, "BEGIN", "SET " ++ k ++ " " ++ v2, "BEGIN",
        "SET " ++ k ++ " " ++ v3, "ROLLBACK", "GET " ++ k, "ROLLBACK"]) ("GET " ++ k)).1.stdout
          = [v1]) := by
  obtain ⟨s, t⟩ := st
  -- the state after the six lines
  have e6 : runLines ⟨s, t⟩ ["SET " ++ k ++ " " ++ v1, "BEGIN", "SET " ++ k ++ " " ++ v2,
      "BEGIN", "SET " ++ k ++ " " ++ v3, "ROLLBACK"] =
      ⟨(((s.insert k v1).insert k v2).insert k v3).insert k v2,
        ⟨(t.AddCommand (.set ((Set.mk k v1 "" false).Execute s).2.1)).transactions ++
          [⟨[.set ⟨k, v2, v1, true⟩]⟩]⟩⟩ := by
    rw [runLines_cons, Run_SET_line _ k v1 hk h1]
    rw [show ["BEGIN", "SET " ++ k ++ " " ++ v2, "BEGIN", "SET " ++ k ++ " " ++ v3, "ROLLBACK"]
      = ["BEGIN", "SET " ++ k ++ " " ++ v2] ++ (["BEGIN", "SET " ++ k ++ " " ++ v3] ++
        ["ROLLBACK"]) from rfl]
    rw [runLines_append, runLines_BEGIN_SET _ _ k v1 v2 hk h2 (Finmap.lookup_insert _)]
    rw [runLines_append, runLines_BEGIN_SET _ _ k v2 v3 hk h3 (Finmap.lookup_insert _)]
    rw [runLines_cons, Run_ROLLBACK_snoc]
    simp [runLines, Transaction.Rollback, Executable.Undo, Set.Undo]
  have e8 : runLines ⟨s, t⟩ ["SET " ++ k ++ " " ++ v1, "BEGIN", "SET " ++ k ++ " " ++ v2,
      "BEGIN", "SET " ++ k ++ " " ++ v3, "ROLLBACK", "GET " ++ k, "ROLLBACK"] =
      ⟨((((s.insert k v1).insert k v2).insert k v3).insert k v2).insert k v1,
        ⟨(t.AddCommand (.set ((Set.mk k v1 "" false).Execute s).2.1)).transactions⟩⟩ := by
    rw [show ["SET " ++ k ++ " " ++ v1, "BEGIN", "SET " ++ k ++ " " ++ v2,
      "BEGIN", "SET " ++ k ++ " " ++ v3, "ROLLBACK", "GET " ++ k, "ROLLBACK"] =
      ["SET " ++ k ++ " " ++ v1, "BEGIN", "SET " ++ k ++ " " ++ v2,
      "BEGIN", "SET " ++ k ++ " " ++ v3, "ROLLBACK"] ++ ["GET " ++ k, "ROLLBACK"] from rfl]
    rw [runLines_append, e6, runLines_cons, Run_GET_line _ k hk, runLines_cons,
      Run_ROLLBACK_snoc]
    simp [runLines, Transaction.Rollback, Executable.Undo, Set.Undo]
  rw [e6, e8, Run_GET_line _ k hk, Run_GET_line _ k hk]
  simp [Get.Execute]

theorem C2_nested_rollback_restores_intermediate_witness :
    (spaceFree "a" ∧ spaceFree "10" ∧ spaceFree "20" ∧ spaceFree "30") ∧
    (((runLines ⟨(∅ : Store).insert "a" "0", ⟨[⟨[]⟩]⟩⟩
        ["SET " ++ "a" ++ " " ++ "10", "BEGIN", "SET " ++ "a" ++ " " ++ "20", "BEGIN",
        "SET " ++ "a" ++ " " ++ "30", "ROLLBACK"]).Storage.lookup "a" = some "20" ∧
      (Run (runLines ⟨(∅ : Store).insert "a" "0", ⟨[⟨[]⟩]⟩⟩
        ["SET " ++ "a" ++ " " ++ "10", "BEGIN", "SET " ++ "a" ++ " " ++ "20", "BEGIN",
        "SET " ++ "a" ++ " " ++ "30", "ROLLBACK"]) ("GET " ++ "a")).1.stdout = ["20"]) ∧
    ((runLines ⟨(∅ : Store).insert "a" "0", ⟨[⟨[]⟩]⟩⟩
        ["SET " ++ "a" ++ " " ++ "10", "BEGIN", "SET " ++ "a" ++ " " ++ "20", "BEGIN",
        "SET " ++ "a" ++ " " ++ "30", "ROLLBACK", "GET " ++ "a", "ROLLBACK"]).Storage.lookup "a"
          = some "10" ∧
      (Run (runLines ⟨(∅ : Store).insert "a" "0", ⟨[⟨[]⟩]⟩⟩
        ["SET " ++ "a" ++ " " ++ "10", "BEGIN", "SET " ++ "a" ++ " " ++ "20", "BEGIN",
        "SET " ++ "a" ++ " " ++ "30", "ROLLBACK", "GET " ++ "a", "ROLLBACK"])
          ("GET " ++ "a")).1.stdout = ["10"])) :=
  ⟨by decide, C2_nested_rollback_restores_intermediate _ "a" "10" "20" "30"
    (by decide) (by decide) (by decide) (by decide)⟩

theorem Commit_nil : NestedTransactions.Commit ⟨[]⟩ = (some ErrNoTransaction, ⟨[]⟩) := by
  simp [NestedTransactions.Commit]

theorem Commit_of_pos (t : NestedTransactions) (h : 1 ≤ t.transactions.length) :
    t.Commit = (none, ⟨[]⟩) := by
  have h0 : t.transactions.length ≠ 0 := by omega
  simp [NestedTransactions.Commit, h0]

theorem Run_COMMIT (st : State) :
    Run st "COMMIT" =
      (match st.Transactions.Commit.1 with
        | some err => ({ stdout := [err.msg] }, { st with Transactions := st.Transactions.Commit.2 })
        | none => ({}, { st with Transactions := st.Transactions.Commit.2 })) := by
  rw [Run_eq_switch _ "COMMIT" "COMMIT" [] (by decide), show ToUpper "COMMIT" = "COMMIT" by decide]
  simp [Run.switch]

theorem Run_ROLLBACK (st : State) :
    Run st "ROLLBACK" =
      (match (st.Transactions.Rollback st.Storage).1 with
        | some err => ({ stdout := [err.msg] },
            { Storage := (st.Transactions.Rollback st.Storage).2.2,
              Transactions := (st.Transactions.Rollback st.Storage).2.1 })
        | none => ({},
            { Storage := (st.Transactions.Rollback st.Storage).2.2,
              Transactions := (st.Transactions.Rollback st.Storage).2.1 })) := by
  rw [Run_eq_switch _ "ROLLBACK" "ROLLBACK" [] (by decide),
    show ToUpper "ROLLBACK" = "ROLLBACK" by decide]
  simp [Run.switch]

/-- C3: with no transaction open, after `BEGIN; BEGIN; SET k v; COMMIT` the
stack is empty and the `COMMIT` has left the store as it was; the `ROLLBACK`
that follows gets the `ErrNoTransaction` error, prints its message, and the
store still maps `k` to `v`.  For every stack `t` of depth at least one,
`Commit` returns no error and empties the stack, and `COMMIT` through `Run`
leaves the store as it was. -/
theorem C3_commit_closes_every_level (s : Store) (k v : String)
    (hk : spaceFree k) (hv : spaceFree v)
    (t : NestedTransactions) (s1 : Store) (ht : 1 ≤ t.transactions.length) :
    ((runLines ⟨s, ⟨[]⟩⟩ ["BEGIN", "BEGIN", "SET " ++ k ++ " " ++ v, "COMMIT"]).Transactions
        = ⟨[]⟩ ∧
      (runLines ⟨s, ⟨[]⟩⟩ ["BEGIN", "BEGIN", "SET " ++ k ++ " " ++ v, "COMMIT"]).Storage
        = (runLines ⟨s, ⟨[]⟩⟩ ["BEGIN", "BEGIN", "SET " ++ k ++ " " ++ v]).Storage) ∧
    (((runLines ⟨s, ⟨[]⟩⟩ ["BEGIN", "BEGIN", "SET " ++ k ++ " " ++ v,
        "COMMIT"]).Transactions.Rollback
        (runLines ⟨s, ⟨[]⟩⟩ ["BEGIN", "BEGIN", "SET " ++ k ++ " " ++ v, "COMMIT"]).Storage).1
        = some ErrNoTransaction ∧
      (Run (runLines ⟨s, ⟨[]⟩⟩ ["BEGIN", "BEGIN", "SET " ++ k ++ " " ++ v, "COMMIT"])
        "ROLLBACK").1.stdout = [ErrNoTransaction.msg] ∧
      (runLines ⟨s, ⟨[]⟩⟩ ["BEGIN", "BEGIN", "SET " ++ k ++ " " ++ v, "COMMIT",
        "ROLLBACK"]).Storage.lookup k = some v ∧
      (Run (runLines ⟨s, ⟨[]⟩⟩ ["BEGIN", "BEGIN", "SET " ++ k ++ " " ++ v, "COMMIT",
        "ROLLBACK"]) ("GET " ++ k)).1.stdout = [v]) ∧
    (t.Commit = (none, ⟨[]⟩) ∧ (Run ⟨s1, t⟩ "COMMIT").2 = ⟨s1, ⟨[]⟩⟩) := by
  have e3 : runLines ⟨s, ⟨[]⟩⟩ ["BEGIN", "BEGIN", "SET " ++ k ++ " " ++ v] =
      ⟨s.insert k v, ⟨[] ++ [⟨[]⟩] ++
        [⟨[.set ((Set.mk k v "" false).Execute s).2.1]⟩]⟩⟩ := by
    rw [runLines_cons, Run_BEGIN, runLines_cons, Run_BEGIN, runLines_cons,
      Run_SET_line _ k v hk hv]
    simp only [NestedTransactions.Begin, AddCommand_snoc, Transaction.AddCommand]
    rfl
  have e4 : runLines ⟨s, ⟨[]⟩⟩ ["BEGIN", "BEGIN", "SET " ++ k ++ " " ++ v, "COMMIT"] =
      ⟨s.insert k v, ⟨[]⟩⟩ := by
    rw [show ["BEGIN", "BEGIN", "SET " ++ k ++ " " ++ v, "COMMIT"] =
      ["BEGIN", "BEGIN", "SET " ++ k ++ " " ++ v] ++ ["COMMIT"] from rfl, runLines_append, e3,
      runLines_cons, Run_COMMIT_snoc]
    rfl
  have e5 : runLines ⟨s, ⟨[]⟩⟩ ["BEGIN", "BEGIN", "SET " ++ k ++ " " ++ v, "COMMIT",
      "ROLLBACK"] = ⟨s.insert k v, ⟨[]⟩⟩ := by
    rw [show ["BEGIN", "BEGIN", "SET " ++ k ++ " " ++ v, "COMMIT", "ROLLBACK"] =
      ["BEGIN", "BEGIN", "SET " ++ k ++ " " ++ v, "COMMIT"] ++ ["ROLLBACK"] from rfl,
      runLines_append, e4, runLines_cons, Run_ROLLBACK_nil]
    rfl
  rw [e3, e4, e5, Run_ROLLBACK_nil, Rollback_nil, Run_GET_line _ k hk, Run_COMMIT,
    Commit_of_pos t ht]
  simp [Get.Execute]

theorem C3_commit_closes_every_level_witness :
    (spaceFree "a" ∧ spaceFree "10" ∧
      1 ≤ (NestedTransactions.mk [⟨[]⟩, ⟨[.set ⟨"b", "2", "", false⟩]⟩]).transactions.length) ∧
    (runLines ⟨(∅ : Store).insert "b" "2", ⟨[]⟩⟩
      ["BEGIN", "BEGIN", "SET " ++ "a" ++ " " ++ "10", "COMMIT"]).Transactions = ⟨[]⟩ ∧
    (NestedTransactions.mk [⟨[]⟩, ⟨[.set ⟨"b", "2", "", false⟩]⟩]).Commit = (none, ⟨[]⟩) :=
  have h := C3_commit_closes_every_level ((∅ : Store).insert "b" "2") "a" "10"
    (by decide) (by decide) ⟨[⟨[]⟩, ⟨[.set ⟨"b", "2", "", false⟩]⟩]⟩
    ((∅ : Store).insert "b" "2") (by decide)
  ⟨by decide, h.1.1, h.2.2.1⟩

/-- C4: `Rollback` returns the `ErrNoTransaction` error exactly when the stack
is empty, and so does `Commit`; on the empty stack both leave the stack empty,
and the store is as it was after `Rollback` and after `ROLLBACK` and `COMMIT`
through `Run`. -/
theorem C4_no_transaction_iff_empty_stack (t : NestedTransactions) (s : Store) :
    ((t.Rollback s).1 = some ErrNoTransaction ↔ t.transactions = []) ∧
    (t.Commit.1 = some ErrNoTransaction ↔ t.transactions = []) ∧
    NestedTransactions.Rollback ⟨[]⟩ s = (some ErrNoTransaction, ⟨[]⟩, s) ∧
    NestedTransactions.Commit ⟨[]⟩ = (some ErrNoTransaction, ⟨[]⟩) ∧
    (Run ⟨s, ⟨[]⟩⟩ "ROLLBACK").2 = ⟨s, ⟨[]⟩⟩ ∧
    (Run ⟨s, ⟨[]⟩⟩ "COMMIT").2 = ⟨s, ⟨[]⟩⟩ := by
  obtain ⟨ts⟩ := t
  refine ⟨?_, ?_, Rollback_nil s, Commit_nil, ?_, ?_⟩
  · rcases List.eq_nil_or_concat ts with h | ⟨ts1, tr, h⟩
    · subst h; simp [Rollback_nil]
    · subst h; simp [Rollback_snoc]
  · rcases List.eq_nil_or_concat ts with h | ⟨ts1, tr, h⟩
    · subst h; simp [Commit_nil]
    · subst h; simp [NestedTransactions.Commit]
  · rw [Run_ROLLBACK_nil]
  · rw [Run_COMMIT, Commit_nil]

/-- C5: executing a fresh `Set{k, v}` on a store and then calling its `Undo`
gives back exactly that store; in particular `k` is bound (or absent) as it
was before. -/
theorem C5_set_execute_undo_identity (s : Store) (k v : String) :
    ((Set.mk k v "" false).Execute s).2.1.Undo ((Set.mk k v "" false).Execute s).2.2 = s ∧
    (((Set.mk k v "" false).Execute s).2.1.Undo
      ((Set.mk k v "" false).Execute s).2.2).lookup k = s.lookup k := by
  rw [Set.Undo_Execute_fresh (Set.mk k v "" false) rfl s]
  exact ⟨rfl, rfl⟩

/-- C6: executing a fresh `Unset{k}` on a store and then calling its `Undo`
gives back exactly that store. -/
theorem C6_unset_execute_undo_identity (s : Store) (k : String) :
    ((Unset.mk k "" false).Execute s).2.1.Undo ((Unset.mk k "" false).Execute s).2.2 = s ∧
    (((Unset.mk k "" false).Execute s).2.1.Undo
      ((Unset.mk k "" false).Execute s).2.2).lookup k = s.lookup k := by
  rw [Unset.Undo_Execute_unset_fresh (Unset.mk k "" false) rfl s]
  exact ⟨rfl, rfl⟩

/-- C7: after `Set{k, v}.Execute` the store maps `k` to `v`, `Get{k}.Execute`
returns `v`, and every other key `j` is bound as before. -/
theorem C7_set_then_get (s : Store) (k v j : String) (hj : j ≠ k) :
    ((Set.mk k v "" false).Execute s).2.2.lookup k = some v ∧
    (Get.mk k).Execute ((Set.mk k v "" false).Execute s).2.2 = v ∧
    ((Set.mk k v "" false).Execute s).2.2.lookup j = s.lookup j := by
  simp [Set.Execute, Get.Execute, Finmap.lookup_insert_of_ne _ hj]

theorem C7_set_then_get_witness :
    "b" ≠ "a" ∧
    ((Set.mk "a" "10" "" false).Execute ((∅ : Store).insert "b" "7")).2.2.lookup "a"
      = some "10" ∧
    (Get.mk "a").Execute ((Set.mk "a" "10" "" false).Execute ((∅ : Store).insert "b" "7")).2.2
      = "10" ∧
    ((Set.mk "a" "10" "" false).Execute ((∅ : Store).insert "b" "7")).2.2.lookup "b"
      = ((∅ : Store).insert "b" "7").lookup "b" :=
  ⟨by decide, C7_set_then_get _ "a" "10" "b" (by decide)⟩

/-- C8: after `Unset{k}.Execute`, whether or not `k` was present, `k` is absent
from the store, `Get{k}.Execute` returns `NULL`, and every other key `j` is
bound as before. -/
theorem C8_unset_then_get (s : Store) (k j : String) (hj : j ≠ k) :
    k ∉ ((Unset.mk k "" false).Execute s).2.2 ∧
    ((Unset.mk k "" false).Execute s).2.2.lookup k = none ∧
    (Get.mk k).Execute ((Unset.mk k "" false).Execute s).2.2 = "NULL" ∧
    ((Unset.mk k "" false).Execute s).2.2.lookup j = s.lookup j := by
  have hnone : ((Unset.mk k "" false).Execute s).2.2.lookup k = none := by
    cases hl : s.lookup k with
    | none => simp [Unset.Execute, hl]
    | some old => simp [Unset.Execute, hl]
  refine ⟨Finmap.lookup_eq_none.mp hnone, hnone, ?_, ?_⟩
  · simp [Get.Execute, hnone]
  · cases hl : s.lookup k with
    | none => simp [Unset.Execute, hl]
    | some old => simp [Unset.Execute, hl, Finmap.lookup_erase_ne hj]

theorem C8_unset_then_get_witness :
    "b" ≠ "a" ∧
    "a" ∉ ((Unset.mk "a" "" false).Execute (((∅ : Store).insert "b" "7").insert "a" "1")).2.2 ∧
    ((Unset.mk "a" "" false).Execute (((∅ : Store).insert "b" "7").insert "a" "1")).2.2.lookup
      "a" = none ∧
    (Get.mk "a").Execute
      ((Unset.mk "a" "" false).Execute (((∅ : Store).insert "b" "7").insert "a" "1")).2.2
      = "NULL" ∧
    ((Unset.mk "a" "" false).Execute (((∅ : Store).insert "b" "7").insert "a" "1")).2.2.lookup
      "b" = (((∅ : Store).insert "b" "7").insert "a" "1").lookup "b" :=
  ⟨by decide, C8_unset_then_get _ "a" "b" (by decide)⟩

/-! ## Counting -/

theorem foldl_step_eq_add_countP (cmd : NumEqualTo) (m : Multiset (Sigma fun _ : String => String))
    (d : Nat) :
    letI : RightCommutative fun (d : Nat) (e : Sigma fun _ : String => String) =>
        cmd.step d e.1 e.2 := ⟨fun _ _ _ => cmd.step_comm _ _ _ _ _⟩
    Multiset.foldl (fun (d : Nat) (e : Sigma fun _ : String => String) => cmd.step d e.1 e.2) d m
      = d + Multiset.countP (fun e => e.2 = cmd.Value) m := by
  induction m using Multiset.induction_on generalizing d with
  | empty => simp
  | cons e m ih =>
    rw [Multiset.foldl_cons, ih]
    by_cases he : e.2 = cmd.Value
    · rw [Multiset.countP_cons_of_pos (p := fun e => e.2 = cmd.Value) m he]
      simp only [NumEqualTo.step, he, if_true]
      omega
    · rw [Multiset.countP_cons_of_neg (p := fun e => e.2 = cmd.Value) m he]
      simp only [NumEqualTo.step, he, if_false]

theorem count_eq_countP (cmd : NumEqualTo) (s : Store) :
    cmd.count s = Multiset.countP (fun e => e.2 = cmd.Value) s.entries := by
  unfold NumEqualTo.count Finmap.foldl
  have h := foldl_step_eq_add_countP cmd s.entries 0
  simp only [Nat.zero_add] at h
  exact h

theorem numKeysWithValue_eq_countP (s : Store) (v : String) :
    numKeysWithValue s v = Multiset.countP (fun e => e.2 = v) s.entries := by
  unfold numKeysWithValue
  rw [Finset.card_def, Finset.filter_val, ← Multiset.countP_eq_card_filter]
  change Multiset.countP _ (s.entries.keys) = _
  unfold Multiset.keys
  rw [Multiset.countP_map, ← Multiset.countP_eq_card_filter]
  apply Multiset.countP_congr rfl
  intro e he
  have hl : s.lookup e.1 = some e.2 := by
    have : e.2 ∈ s.lookup e.1 := Finmap.mem_lookup_iff.mpr (by simpa using he)
    simpa using this
  simp [hl]

theorem count_eq_numKeysWithValue (v : String) (s : Store) :
    (NumEqualTo.mk v).count s = numKeysWithValue s v := by
  rw [count_eq_countP, numKeysWithValue_eq_countP]

theorem numKeysWithValue_erase (s : Store) (k v : String) (h : s.lookup k = some v) :
    numKeysWithValue (s.erase k) v + 1 = numKeysWithValue s v := by
  unfold numKeysWithValue
  have hmem : k ∈ s.keys.filter (fun j => s.lookup j = some v) := by
    simp [Finset.mem_filter, Finmap.mem_keys, Finmap.mem_of_lookup_eq_some h, h]
  have hset : (s.erase k).keys.filter (fun j => (s.erase k).lookup j = some v) =
      (s.keys.filter (fun j => s.lookup j = some v)).erase k := by
    ext j
    by_cases hj : j = k
    · subst hj; simp
    · simp [Finset.mem_filter, Finmap.mem_keys, Finmap.mem_erase, hj,
        Finmap.lookup_erase_ne hj]
  rw [hset, Finset.card_erase_of_mem hmem]
  have : 0 < (s.keys.filter (fun j => s.lookup j = some v)).card :=
    Finset.card_pos.mpr ⟨k, hmem⟩
  omega

theorem digitChar_value : ∀ m < 10, (Nat.digitChar m).toNat - 48 = m := by
  decide

theorem digitChar_isDigit : ∀ m < 10, (Nat.digitChar m).isDigit = true := by
  decide

theorem foldl_toDigitsCore (fuel : Nat) :
    ∀ (n : Nat) (ds : List Char), n < fuel →
      (Nat.toDigitsCore 10 fuel n ds).foldl (fun acc c => 10 * acc + (c.toNat - 48)) 0
        = ds.foldl (fun acc c => 10 * acc + (c.toNat - 48)) n := by
  induction fuel with
  | zero => intro n ds h; omega
  | succ fuel ih =>
    intro n ds h
    have hd := digitChar_value (n % 10) (Nat.mod_lt n (by decide))
    unfold Nat.toDigitsCore
    by_cases h0 : n / 10 = 0
    · simp only [h0, if_true, List.foldl_cons, Nat.mul_zero, Nat.zero_add, hd]
      have : n % 10 = n := by omega
      rw [this]
    · simp only [h0, if_false]
      rw [ih (n / 10) _ (by omega)]
      simp only [List.foldl_cons, hd]
      have : 10 * (n / 10) + n % 10 = n := Nat.div_add_mod n 10
      rw [this]

/-- The string `Nat.repr n` read as a decimal numeral is `n`. -/
theorem decimalValue_repr (n : Nat) : decimalValue (Nat.repr n) = n := by
  unfold decimalValue Nat.repr Nat.toDigits
  simp only [List.asString]
  rw [foldl_toDigitsCore (n + 1) n [] (by omega)]
  rfl

theorem all_toDigitsCore (fuel : Nat) :
    ∀ (n : Nat) (ds : List Char), (∀ c ∈ ds, c.isDigit = true) →
      ∀ c ∈ Nat.toDigitsCore 10 fuel n ds, c.isDigit = true := by
  induction fuel with
  | zero => intro n ds h; simpa [Nat.toDigitsCore] using h
  | succ fuel ih =>
    intro n ds h
    have hd := digitChar_isDigit (n % 10) (Nat.mod_lt n (by decide))
    unfold Nat.toDigitsCore
    by_cases h0 : n / 10 = 0
    · simp only [h0, if_true]
      intro c hc
      rcases List.mem_cons.mp hc with rfl | hc
      · exact hd
      · exact h c hc
    · simp only [h0, if_false]
      apply ih
      intro c hc
      rcases List.mem_cons.mp hc with rfl | hc
      · exact hd
      · exact h c hc

/-- Every character of `Nat.repr n` is one of the digits `0`..`9`. -/
theorem repr_all_digits (n : Nat) : ∀ c ∈ (Nat.repr n).data, c.isDigit = true := by
  unfold Nat.repr Nat.toDigits
  simp only [List.asString]
  exact all_toDigitsCore (n + 1) n [] (by simp)

/-- C9: `NumEqualTo{v}.Execute` returns the decimal string of the number of
keys whose current value is `v`, each such key counted once: the returned
string is `Nat.repr` of that number, it is made of the digits `0`..`9` only,
and read as a decimal numeral it is that number.  The number is 0 exactly
when no key is mapped to `v`, and then the string is `0`. -/
theorem C9_numequalto_counts_keys (s : Store) (v : String) :
    (NumEqualTo.mk v).Execute s
      = Nat.repr (s.keys.filter (fun k => s.lookup k = some v)).card ∧
    decimalValue ((NumEqualTo.mk v).Execute s)
      = (s.keys.filter (fun k => s.lookup k = some v)).card ∧
    (∀ c ∈ ((NumEqualTo.mk v).Execute s).data, c.isDigit = true) ∧
    (NumEqualTo.mk v).count s = (s.keys.filter (fun k => s.lookup k = some v)).card ∧
    (numKeysWithValue s v = 0 ↔ ∀ k, s.lookup k ≠ some v) ∧
    ((∀ k, s.lookup k ≠ some v) → (NumEqualTo.mk v).Execute s = "0") := by
  have hc : (NumEqualTo.mk v).count s = (s.keys.filter (fun k => s.lookup k = some v)).card :=
    count_eq_numKeysWithValue v s
  have he : (NumEqualTo.mk v).Execute s
      = Nat.repr (s.keys.filter (fun k => s.lookup k = some v)).card := by
    rw [← hc]; rfl
  have hz : numKeysWithValue s v = 0 ↔ ∀ k, s.lookup k ≠ some v := by
    unfold numKeysWithValue
    rw [Finset.card_eq_zero, Finset.filter_eq_empty_iff]
    constructor
    · intro h k hk
      exact h (Finmap.mem_keys.mpr (Finmap.mem_of_lookup_eq_some hk)) hk
    · intro h k _
      exact h k
  refine ⟨he, ?_, ?_, hc, hz, ?_⟩
  · rw [he, decimalValue_repr]
  · rw [he]; exact repr_all_digits _
  · intro h
    have h0 : (s.keys.filter (fun k => s.lookup k = some v)).card = 0 := hz.mpr h
    rw [he, h0]
    rfl

/-- C10: when the store maps `k` to `v`, the count `NumEqualTo{v}` returns
after `Unset{k}.Execute` is exactly one less than the count it returns before. -/
theorem C10_unset_decrements_count (s : Store) (k v : String) (h : s.lookup k = some v) :
    (NumEqualTo.mk v).count ((Unset.mk k "" false).Execute s).2.2 + 1
      = (NumEqualTo.mk v).count s ∧
    (NumEqualTo.mk v).Execute s = Itoa ((NumEqualTo.mk v).count s) ∧
    (NumEqualTo.mk v).Execute ((Unset.mk k "" false).Execute s).2.2
      = Itoa ((NumEqualTo.mk v).count s - 1) := by
  have he : ((Unset.mk k "" false).Execute s).2.2 = s.erase k := by
    simp [Unset.Execute, h]
  have hc : (NumEqualTo.mk v).count (s.erase k) + 1 = (NumEqualTo.mk v).count s := by
    rw [count_eq_numKeysWithValue, count_eq_numKeysWithValue]
    exact numKeysWithValue_erase s k v h
  rw [he]
  refine ⟨hc, rfl, ?_⟩
  rw [← hc]
  rfl

theorem C10_unset_decrements_count_witness :
    (((∅ : Store).insert "a" "1").insert "b" "1").lookup "a" = some "1" ∧
    (NumEqualTo.mk "1").count
      ((Unset.mk "a" "" false).Execute (((∅ : Store).insert "a" "1").insert "b" "1")).2.2 + 1
      = (NumEqualTo.mk "1").count (((∅ : Store).insert "a" "1").insert "b" "1") :=
  ⟨by decide, (C10_unset_decrements_count _ "a" "1" (by decide)).1⟩

/-! ## Argument and keyword errors -/

theorem switch_not_enough (st : State) (cmd : String) (params : List String)
    (h : (cmd = "SET" ∧ params.length < 2) ∨
      ((cmd = "GET" ∨ cmd = "UNSET" ∨ cmd = "NUMEQUALTO") ∧ params.length < 1)) :
    Run.switch st cmd params = ({ result := NotEnoughArguments cmd }, st) := by
  rcases h with ⟨rfl, hl⟩ | ⟨rfl | rfl | rfl, hl⟩ <;> simp [Run.switch, hl]

theorem switch_unknown (st : State) (cmd : String) (params : List String)
    (h : cmd ∉ keywords) :
    Run.switch st cmd params = ({ result := UnknownCommand cmd }, st) := by
  simp only [keywords, List.mem_cons, List.mem_singleton, List.not_mem_nil, or_false,
    not_or] at h
  obtain ⟨h1, h2, h3, h4, h5, h6, h7, h8, h9, h10⟩ := h
  simp [Run.switch, h1, h2, h3, h4, h5, h6, h7, h8, h9, h10]

/-- C11: for a line whose first token upper-cases to `SET` with fewer than two
tokens after it, or to `GET`, `UNSET` or `NUMEQUALTO` with no token after it,
`Run` returns the text `ErrNotEnoughArguments (<KEYWORD>): not enough
arguments, please refer to help` with the upper-case keyword, prints nothing,
and leaves the store and the transaction stack as they were. -/
theorem C11_not_enough_arguments (st : State) (line a0 : String) (params : List String)
    (hs : Split line = a0 :: params)
    (h : (ToUpper a0 = "SET" ∧ params.length < 2) ∨
      ((ToUpper a0 = "GET" ∨ ToUpper a0 = "UNSET" ∨ ToUpper a0 = "NUMEQUALTO") ∧
        params.length < 1)) :
    Run st line =
      ({ result := "ErrNotEnoughArguments (" ++ ToUpper a0 ++
          "): not enough arguments, please refer to help" }, st) := by
  rw [Run_eq_switch st line a0 params hs, switch_not_enough st _ params h]
  simp only [NotEnoughArguments, ErrNotEnoughArguments, String.append_assoc]
  rfl

theorem C11_not_enough_arguments_witness :
    (Split "set a" = "set" :: ["a"] ∧
      ((ToUpper "set" = "SET" ∧ ["a"].length < 2) ∨
        ((ToUpper "set" = "GET" ∨ ToUpper "set" = "UNSET" ∨ ToUpper "set" = "NUMEQUALTO") ∧
          ["a"].length < 1))) ∧
    Run ⟨(∅ : Store).insert "a" "1", ⟨[⟨[]⟩]⟩⟩ "set a" =
      ({ result := "ErrNotEnoughArguments (" ++ ToUpper "set" ++
          "): not enough arguments, please refer to help" },
        ⟨(∅ : Store).insert "a" "1", ⟨[⟨[]⟩]⟩⟩) :=
  ⟨by decide, C11_not_enough_arguments _ "set a" "set" ["a"] (by decide) (by decide)⟩

/-- C12, as stated, fails: on the line `foo` the returned text names `FOO`,
the upper-cased token, not the token `foo` of the input line. -/
theorem C12_unknown_token_is_upper_cased :
    Split "foo" = ["foo"] ∧ ToUpper "foo" ∉ keywords ∧
    (Run {} "foo").1.result = "ErrUnknownCommand (FOO): unknown command, please refer to help" ∧
    (Run {} "foo").1.result ≠ "ErrUnknownCommand (foo): unknown command, please refer to help" := by
  decide

/-- C12, amended: take any case table `upper` for `strings.ToUpper`.  For a
line whose first token, with every character replaced by its upper-case form,
is none of the keywords, `Run` leaves the store and the transaction stack as
they were, prints nothing, and returns `ErrUnknownCommand (<TOKEN>): unknown
command, please refer to help`, where `<TOKEN>` is that upper-cased first
token. -/
theorem C12_unknown_command_names_upper_token (upper : Char → Char) (st : State)
    (line a0 : String) (params : List String) (hs : Split line = a0 :: params)
    (h : String.mk (a0.data.map upper) ∉ keywords) :
    RunWith upper st line =
      ({ exited := false,
         result := "ErrUnknownCommand (" ++ String.mk (a0.data.map upper) ++
          "): unknown command, please refer to help",
         err := none, stdout := [] }, st) := by
  rw [RunWith_eq_switch upper st line a0 params hs, ToUpperWith,
    switch_unknown st _ params h]
  simp only [UnknownCommand, ErrUnknownCommand, String.append_assoc]
  rfl

theorem C12_unknown_command_names_upper_token_witness :
    (Split "f\u00e9 bar" = "f\u00e9" :: ["bar"] ∧
      String.mk ("f\u00e9".data.map
        (fun c => if c = Char.ofNat 233 then Char.ofNat 201 else c.toUpper)) ∉ keywords) ∧
    RunWith (fun c => if c = Char.ofNat 233 then Char.ofNat 201 else c.toUpper)
        ⟨(∅ : Store).insert "a" "1", ⟨[⟨[]⟩]⟩⟩ "f\u00e9 bar" =
      ({ exited := false,
         result := "ErrUnknownCommand (" ++ String.mk ("f\u00e9".data.map
            (fun c => if c = Char.ofNat 233 then Char.ofNat 201 else c.toUpper)) ++
          "): unknown command, please refer to help",
         err := none, stdout := [] },
        ⟨(∅ : Store).insert "a" "1", ⟨[⟨[]⟩]⟩⟩) :=
  ⟨by decide, C12_unknown_command_names_upper_token _ _ "f\u00e9 bar" "f\u00e9" ["bar"]
    (by decide) (by decide)⟩

/-! ## What `GET` and `NUMEQUALTO` give back -/

theorem switch_NUMEQUALTO (st : State) (v : String) (rest : List String) :
    Run.switch st "NUMEQUALTO" (v :: rest) =
      ({ stdout := [(NumEqualTo.mk v).Execute st.Storage] }, st) := by
  simp [Run.switch]

theorem Run_NUMEQUALTO_line (st : State) (v : String) (hv : spaceFree v) :
    Run st ("NUMEQUALTO " ++ v) = ({ stdout := [(NumEqualTo.mk v).Execute st.Storage] }, st) := by
  have e : "NUMEQUALTO " ++ v = "NUMEQUALTO" ++ " " ++ v := by
    congr 1
  rw [e, Run_eq_switch st _ "NUMEQUALTO" [v] (Split_one "NUMEQUALTO" v (by decide) hv)]
  exact switch_NUMEQUALTO st v []

/-- C13, as stated, fails: with `a` mapped to `1`, the string `Run` returns
for `GET a` is empty, not `1` (the value is written to standard output), and
the string it returns for `NUMEQUALTO 1` is empty, not `1`. -/
theorem C13_get_returns_empty_string :
    (Run ⟨(∅ : Store).insert "a" "1", {}⟩ "GET a").1.result = "" ∧
    (Run ⟨(∅ : Store).insert "a" "1", {}⟩ "GET a").1.result ≠ "1" ∧
    (Run ⟨(∅ : Store).insert "a" "1", {}⟩ "GET a").1.stdout = ["1"] ∧
    (Run ⟨(∅ : Store).insert "a" "1", {}⟩ "NUMEQUALTO 1").1.result = "" ∧
    (Run ⟨(∅ : Store).insert "a" "1", {}⟩ "NUMEQUALTO 1").1.result ≠ "1" ∧
    (Run ⟨(∅ : Store).insert "a" "1", {}⟩ "NUMEQUALTO 1").1.stdout = ["1"] := by
  decide

/-- C13, amended: for a key `k` without spaces, `Run` on `GET k` writes one
line to standard output, the value the store maps `k` to, or `NULL` when `k`
is absent, and returns the empty string and no error; for a value `v` without
spaces, `Run` on `NUMEQUALTO v` writes one line, the decimal count of the keys
mapped to `v`, and returns the empty string and no error.  Neither changes
the state. -/
theorem C13_get_prints_value (st : State) (k v : String) (hk : spaceFree k)
    (hv : spaceFree v) :
    Run st ("GET " ++ k) =
      ({ exited := false, result := "", err := none,
         stdout := [match st.Storage.lookup k with
                    | some value => value
                    | none => "NULL"] }, st) ∧
    Run st ("NUMEQUALTO " ++ v) =
      ({ exited := false, result := "", err := none,
         stdout := [Itoa (numKeysWithValue st.Storage v)] }, st) := by
  refine ⟨?_, ?_⟩
  · rw [Run_GET_line st k hk]
    rfl
  · rw [Run_NUMEQUALTO_line st v hv, NumEqualTo.Execute, count_eq_numKeysWithValue]

theorem C13_get_prints_value_witness :
    (spaceFree "a" ∧ spaceFree "1") ∧
    Run ⟨(∅ : Store).insert "a" "1", {}⟩ ("GET " ++ "a") =
      ({ exited := false, result := "", err := none,
         stdout := [match ((∅ : Store).insert "a" "1").lookup "a" with
                    | some value => value
                    | none => "NULL"] }, ⟨(∅ : Store).insert "a" "1", {}⟩) ∧
    Run ⟨(∅ : Store).insert "a" "1", {}⟩ ("NUMEQUALTO " ++ "1") =
      ({ exited := false, result := "", err := none,
         stdout := [Itoa (numKeysWithValue ((∅ : Store).insert "a" "1") "1")] },
        ⟨(∅ : Store).insert "a" "1", {}⟩) :=
  ⟨by decide, C13_get_prints_value _ "a" "1" (by decide) (by decide)⟩

/-! ## Undo after later writes, and what a rollback leaves alone -/

theorem Set.Undo_lookup_key (cmd : Set) (s1 : Store) :
    (cmd.Undo s1).lookup cmd.Key = if cmd.«exists» then some cmd.oldValue else none := by
  unfold Set.Undo
  split_ifs <;> simp

theorem Set.Undo_lookup_other (cmd : Set) (s1 : Store) (j : String) (hj : j ≠ cmd.Key) :
    (cmd.Undo s1).lookup j = s1.lookup j := by
  unfold Set.Undo
  split_ifs
  · exact Finmap.lookup_insert_of_ne _ hj
  · exact Finmap.lookup_erase_ne hj

theorem Unset.Undo_lookup_unset_other (cmd : Unset) (s1 : Store) (j : String) (hj : j ≠ cmd.Key) :
    (cmd.Undo s1).lookup j = s1.lookup j := by
  unfold Unset.Undo
  split_ifs
  · exact Finmap.lookup_insert_of_ne _ hj
  · rfl

theorem Executable.Undo_lookup_unnamed (c : Executable) (s1 : Store) (j : String)
    (hj : c.key? ≠ some j) : (c.Undo s1).lookup j = s1.lookup j := by
  cases c with
  | set c =>
    exact Set.Undo_lookup_other c s1 j (fun e => hj (by simp [Executable.key?, e]))
  | get c => rfl
  | unset c =>
    exact Unset.Undo_lookup_unset_other c s1 j (fun e => hj (by simp [Executable.key?, e]))
  | numEqualTo c => rfl

theorem Transaction.Rollback_lookup_other (tr : Transaction) (s1 : Store) (j : String)
    (hj : ∀ c ∈ tr.commands, c.key? ≠ some j) : (tr.Rollback s1).lookup j = s1.lookup j := by
  obtain ⟨cmds⟩ := tr
  unfold Transaction.Rollback
  induction cmds with
  | nil => rfl
  | cons c cs ih =>
    simp only [List.foldr_cons]
    rw [Executable.Undo_lookup_unnamed c _ j (hj c (List.mem_cons_self c cs))]
    exact ih (fun d hd => hj d (List.mem_cons_of_mem c hd))

/-- C15: let a fresh `Set{k, v}` be executed on the store `s`, and let `s1` be
any store reached afterwards (the key may have been overwritten, removed or set
again any number of times).  The `Undo` of that command, called on `s1`, binds
`k` exactly as `s` did (its old value if it was present, absent otherwise) and
leaves every other key `j` as it is in `s1`. -/
theorem C15_set_undo_restores_key (s s1 : Store) (k v j : String) (hj : j ≠ k) :
    (((Set.mk k v "" false).Execute s).2.1.Undo s1).lookup k = s.lookup k ∧
    (((Set.mk k v "" false).Execute s).2.1.Undo s1).lookup j = s1.lookup j := by
  constructor
  · cases hl : s.lookup k with
    | none => simp [Set.Execute, Set.Undo, hl]
    | some old => simp [Set.Execute, Set.Undo, hl]
  · apply Set.Undo_lookup_other
    cases hl : s.lookup k with
    | none => simpa [Set.Execute, hl] using hj
    | some old => simpa [Set.Execute, hl] using hj

theorem C15_set_undo_restores_key_witness :
    "b" ≠ "a" ∧
    (((Set.mk "a" "1" "" false).Execute ((∅ : Store).insert "a" "0")).2.1.Undo
      (((∅ : Store).insert "a" "9").insert "b" "5")).lookup "a"
        = ((∅ : Store).insert "a" "0").lookup "a" ∧
    (((Set.mk "a" "1" "" false).Execute ((∅ : Store).insert "a" "0")).2.1.Undo
      (((∅ : Store).insert "a" "9").insert "b" "5")).lookup "b"
        = (((∅ : Store).insert "a" "9").insert "b" "5").lookup "b" :=
  ⟨by decide, C15_set_undo_restores_key _ _ "a" "1" "b" (by decide)⟩

theorem Transaction.Rollback_eq_foldl_reverse (tr : Transaction) (s : Store) :
    tr.Rollback s = tr.commands.reverse.foldl (fun acc c => c.Undo acc) s := by
  simp [Transaction.Rollback, List.foldl_reverse]

/-- C16: on a stack of depth at least one, `Rollback` returns no error and
pops the innermost transaction `tr` only: the stack before is the stack after
followed by `tr`, so the outer transactions are kept, with their logs, in the
same order, and the depth goes down by one; the store after is the store
before with the `Undo` of the commands of `tr` applied from the last
registered to the first; every key that no command of `tr` names is bound as
before. -/
theorem C16_rollback_pops_innermost_only (t : NestedTransactions) (s : Store)
    (h : 1 ≤ t.transactions.length) :
    ∃ tr, t.transactions = (t.Rollback s).2.1.transactions ++ [tr] ∧
      (t.Rollback s).1 = none ∧
      (t.Rollback s).2.1.transactions.length = t.transactions.length - 1 ∧
      (t.Rollback s).2.2 = tr.commands.reverse.foldl (fun acc c => c.Undo acc) s ∧
      ∀ j, (∀ c ∈ tr.commands, c.key? ≠ some j) →
        (t.Rollback s).2.2.lookup j = s.lookup j := by
  obtain ⟨ts⟩ := t
  rcases List.eq_nil_or_concat ts with h0 | ⟨ts1, tr, h0⟩
  · subst h0; simp at h
  · subst h0
    rw [List.concat_eq_append, Rollback_snoc]
    refine ⟨tr, rfl, rfl, by simp, Transaction.Rollback_eq_foldl_reverse tr s, ?_⟩
    intro j hj
    exact Transaction.Rollback_lookup_other tr s j hj

theorem C16_rollback_pops_innermost_only_witness :
    1 ≤ (NestedTransactions.mk [⟨[.set ⟨"b", "2", "", false⟩]⟩,
        ⟨[.set ⟨"a", "1", "0", true⟩, .unset ⟨"c", "3", true⟩]⟩]).transactions.length ∧
    ∃ tr, (NestedTransactions.mk [⟨[.set ⟨"b", "2", "", false⟩]⟩,
        ⟨[.set ⟨"a", "1", "0", true⟩, .unset ⟨"c", "3", true⟩]⟩]).transactions =
      ((NestedTransactions.mk [⟨[.set ⟨"b", "2", "", false⟩]⟩,
        ⟨[.set ⟨"a", "1", "0", true⟩, .unset ⟨"c", "3", true⟩]⟩]).Rollback
          (((∅ : Store).insert "a" "1").insert "b" "2")).2.1.transactions ++ [tr] :=
  ⟨by decide,
    (C16_rollback_pops_innermost_only ⟨[⟨[.set ⟨"b", "2", "", false⟩]⟩,
        ⟨[.set ⟨"a", "1", "0", true⟩, .unset ⟨"c", "3", true⟩]⟩]⟩
      (((∅ : Store).insert "a" "1").insert "b" "2") (by decide)).imp (fun _ hx => hx.1)⟩

/-- C17: with no transaction open `AddCommand` changes nothing, so a `SET`
run then is applied to the store and recorded nowhere: after `SET k v`,
`BEGIN`, `ROLLBACK` from an empty stack the store is the starting store with
`k` mapped to `v`, and the stack is empty.  With a transaction open,
`AddCommand` appends the command at the end of the log of the innermost
transaction; the depth and the outer transactions are as before. -/
theorem C17_add_command_innermost_or_nothing (s : Store) (k v : String)
    (hk : spaceFree k) (hv : spaceFree v)
    (ts : List Transaction) (tr : Transaction) (c : Executable) :
    (NestedTransactions.AddCommand ⟨[]⟩ c = ⟨[]⟩ ∧
      (Run ⟨s, ⟨[]⟩⟩ ("SET " ++ k ++ " " ++ v)).2 = ⟨s.insert k v, ⟨[]⟩⟩ ∧
      runLines ⟨s, ⟨[]⟩⟩ ["SET " ++ k ++ " " ++ v, "BEGIN", "ROLLBACK"]
        = ⟨s.insert k v, ⟨[]⟩⟩ ∧
      (runLines ⟨s, ⟨[]⟩⟩ ["SET " ++ k ++ " " ++ v, "BEGIN", "ROLLBACK"]).Storage.lookup k
        = some v) ∧
    (NestedTransactions.AddCommand ⟨ts ++ [tr]⟩ c = ⟨ts ++ [⟨tr.commands ++ [c]⟩]⟩ ∧
      (NestedTransactions.AddCommand ⟨ts ++ [tr]⟩ c).transactions.length
        = (ts ++ [tr]).length) := by
  have e1 : (Run ⟨s, ⟨[]⟩⟩ ("SET " ++ k ++ " " ++ v)).2 = ⟨s.insert k v, ⟨[]⟩⟩ := by
    rw [Run_SET_line _ k v hk hv, AddCommand_nil]
  have e3 : runLines ⟨s, ⟨[]⟩⟩ ["SET " ++ k ++ " " ++ v, "BEGIN", "ROLLBACK"]
      = ⟨s.insert k v, ⟨[]⟩⟩ := by
    rw [runLines_cons, e1, runLines_cons, Run_BEGIN, runLines_cons]
    simp only [NestedTransactions.Begin]
    rw [Run_ROLLBACK_snoc]
    rfl
  refine ⟨⟨AddCommand_nil c, e1, e3, ?_⟩, ?_, ?_⟩
  · rw [e3]; exact Finmap.lookup_insert _
  · rw [AddCommand_snoc]; rfl
  · rw [AddCommand_snoc]; simp

theorem C17_add_command_innermost_or_nothing_witness :
    (spaceFree "a" ∧ spaceFree "1") ∧
    runLines ⟨(∅ : Store).insert "b" "2", ⟨[]⟩⟩ ["SET " ++ "a" ++ " " ++ "1", "BEGIN", "ROLLBACK"]
      = ⟨((∅ : Store).insert "b" "2").insert "a" "1", ⟨[]⟩⟩ ∧
    NestedTransactions.AddCommand ⟨[⟨[]⟩] ++ [⟨[.get ⟨"x"⟩]⟩]⟩ (.set ⟨"a", "1", "", false⟩)
      = ⟨[⟨[]⟩] ++ [⟨(Transaction.mk [.get ⟨"x"⟩]).commands ++ [.set ⟨"a", "1", "", false⟩]⟩]⟩ :=
  have h := C17_add_command_innermost_or_nothing ((∅ : Store).insert "b" "2") "a" "1"
    (by decide) (by decide) [⟨[]⟩] ⟨[.get ⟨"x"⟩]⟩ (.set ⟨"a", "1", "", false⟩)
  ⟨by decide, h.1.2.2.1, h.2.1⟩

/-! ## What the logs hold -/

theorem logsMutating_AddCommand (t : NestedTransactions) (c : Executable)
    (ht : logsMutating t) (hc : c.isMutating = true) : logsMutating (t.AddCommand c) := by
  obtain ⟨ts⟩ := t
  rcases List.eq_nil_or_concat ts with h0 | ⟨ts1, tr, h0⟩
  · subst h0; rw [AddCommand_nil]; exact ht
  · subst h0
    rw [List.concat_eq_append] at ht ⊢
    rw [AddCommand_snoc]
    intro x hx d hd
    simp only [List.mem_append, List.mem_singleton] at hx
    rcases hx with hx | rfl
    · exact ht x (by simp [hx]) d hd
    · simp only [Transaction.AddCommand, List.mem_append, List.mem_singleton] at hd
      rcases hd with hd | rfl
      · exact ht tr (by simp) d hd
      · exact hc

theorem logsMutating_Begin (t : NestedTransactions) (ht : logsMutating t) :
    logsMutating t.Begin := by
  intro x hx d hd
  simp only [NestedTransactions.Begin, List.mem_append, List.mem_singleton] at hx
  rcases hx with hx | rfl
  · exact ht x hx d hd
  · simp at hd

theorem logsMutating_Rollback (t : NestedTransactions) (s : Store) (ht : logsMutating t) :
    logsMutating (t.Rollback s).2.1 := by
  obtain ⟨ts⟩ := t
  rcases List.eq_nil_or_concat ts with h0 | ⟨ts1, tr, h0⟩
  · subst h0; rw [Rollback_nil]; exact ht
  · subst h0
    rw [List.concat_eq_append] at ht ⊢
    rw [Rollback_snoc]
    intro x hx d hd
    exact ht x (by simp [hx]) d hd

theorem logsMutating_Commit (t : NestedTransactions) (ht : logsMutating t) :
    logsMutating t.Commit.2 := by
  unfold NestedTransactions.Commit
  split_ifs
  · exact ht
  · intro x hx
    simp at hx

theorem switch_query_state (st : State) (cmd : String) (params : List String)
    (hq : cmd = "GET" ∨ cmd = "NUMEQUALTO") : (Run.switch st cmd params).2 = st := by
  rcases hq with rfl | rfl
  · match params with
    | [] => rw [switch_not_enough st "GET" [] (Or.inr ⟨Or.inl rfl, by simp⟩)]
    | k :: rest => rw [switch_GET]
  · match params with
    | [] => rw [switch_not_enough st "NUMEQUALTO" [] (Or.inr ⟨Or.inr (Or.inr rfl), by simp⟩)]
    | k :: rest => rw [switch_NUMEQUALTO]

theorem switch_ROLLBACK_state (st : State) (params : List String) :
    (Run.switch st "ROLLBACK" params).2 =
      ⟨(st.Transactions.Rollback st.Storage).2.2, (st.Transactions.Rollback st.Storage).2.1⟩ := by
  simp [Run.switch]
  split <;> rfl

theorem switch_COMMIT_state (st : State) (params : List String) :
    (Run.switch st "COMMIT" params).2 = ⟨st.Storage, st.Transactions.Commit.2⟩ := by
  simp [Run.switch]
  split <;> rfl

theorem switch_SET_cases (st : State) (params : List String) :
    (Run.switch st "SET" params).2 = st ∨
      ∃ k v, (Run.switch st "SET" params).2 =
        ⟨st.Storage.insert k v,
          st.Transactions.AddCommand (.set ((Set.mk k v "" false).Execute st.Storage).2.1)⟩ := by
  match params with
  | [] => exact Or.inl (by rw [switch_not_enough st "SET" [] (Or.inl ⟨rfl, by simp⟩)])
  | [k] => exact Or.inl (by rw [switch_not_enough st "SET" [k] (Or.inl ⟨rfl, by simp⟩)])
  | k :: v :: rest => exact Or.inr ⟨k, v, by rw [switch_SET]⟩

theorem switch_UNSET_cases (st : State) (params : List String) :
    (Run.switch st "UNSET" params).2 = st ∨
      ∃ k, (Run.switch st "UNSET" params).2 =
        ⟨((Unset.mk k "" false).Execute st.Storage).2.2,
          st.Transactions.AddCommand
            (.unset ((Unset.mk k "" false).Execute st.Storage).2.1)⟩ := by
  match params with
  | [] =>
    exact Or.inl (by
      rw [switch_not_enough st "UNSET" [] (Or.inr ⟨Or.inr (Or.inl rfl), by simp⟩)])
  | k :: rest => exact Or.inr ⟨k, by rw [switch_UNSET]⟩

theorem switch_logsMutating (st : State) (cmd : String) (params : List String)
    (ht : logsMutating st.Transactions) :
    logsMutating (Run.switch st cmd params).2.Transactions := by
  by_cases hk : cmd ∈ keywords
  · simp only [keywords, List.mem_cons, List.mem_singleton, List.not_mem_nil, or_false] at hk
    rcases hk with rfl | rfl | rfl | rfl | rfl | rfl | rfl | rfl | rfl | rfl
    · simpa [Run.switch] using ht
    · simpa [Run.switch] using ht
    · simpa [Run.switch] using ht
    · rw [switch_query_state st _ params (Or.inl rfl)]; exact ht
    · rcases switch_SET_cases st params with h | ⟨k, v, h⟩
      · rw [h]; exact ht
      · rw [h]; exact logsMutating_AddCommand _ _ ht rfl
    · rw [switch_query_state st _ params (Or.inr rfl)]; exact ht
    · rcases switch_UNSET_cases st params with h | ⟨k, h⟩
      · rw [h]; exact ht
      · rw [h]; exact logsMutating_AddCommand _ _ ht rfl
    · rw [switch_BEGIN]; exact logsMutating_Begin _ ht
    · rw [switch_ROLLBACK_state]; exact logsMutating_Rollback _ _ ht
    · rw [switch_COMMIT_state]; exact logsMutating_Commit _ ht
  · rw [switch_unknown st cmd params hk]; exact ht

theorem Run_logsMutating (st : State) (line : String) (ht : logsMutating st.Transactions) :
    logsMutating (Run st line).2.Transactions := by
  cases hs : Split line with
  | nil => exact absurd hs (Split_ne_nil line)
  | cons a0 params =>
    rw [Run_eq_switch st line a0 params hs]
    exact switch_logsMutating st _ params ht

theorem Reachable_logsMutating (st : State) (hr : Reachable st) :
    logsMutating st.Transactions := by
  induction hr with
  | init =>
    intro x hx
    simp at hx
  | step st line _ ih => exact Run_logsMutating st line ih

/-- C18: `Run` on a line whose first token upper-cases to `GET` or to
`NUMEQUALTO` leaves the store and the transaction stack, with every log in
it, exactly as they were; and in every state reachable from the initial state
through `Run`, every command held in the log of any open transaction is a
`Set` or an `Unset`. -/
theorem C18_only_mutations_are_logged (st : State) (line a0 : String) (params : List String)
    (hs : Split line = a0 :: params)
    (hq : ToUpper a0 = "GET" ∨ ToUpper a0 = "NUMEQUALTO")
    (st1 : State) (hr : Reachable st1) :
    (Run st line).2 = st ∧
    ∀ tr ∈ st1.Transactions.transactions, ∀ c ∈ tr.commands,
      (∃ x, c = .set x) ∨ (∃ x, c = .unset x) := by
  refine ⟨?_, ?_⟩
  · rw [Run_eq_switch st line a0 params hs]
    exact switch_query_state st _ params hq
  · intro tr htr c hc
    have h := Reachable_logsMutating st1 hr tr htr c hc
    cases c with
    | set x => exact Or.inl ⟨x, rfl⟩
    | unset x => exact Or.inr ⟨x, rfl⟩
    | get x => simp [Executable.isMutating] at h
    | numEqualTo x => simp [Executable.isMutating] at h

theorem C18_only_mutations_are_logged_witness :
    (Split "get a" = "get" :: ["a"] ∧
      (ToUpper "get" = "GET" ∨ ToUpper "get" = "NUMEQUALTO") ∧
      Reachable (Run (Run (Run {} "BEGIN").2 "SET a 1").2 "GET a").2) ∧
    ((Run ⟨(∅ : Store).insert "a" "1", ⟨[⟨[]⟩]⟩⟩ "get a").2
        = ⟨(∅ : Store).insert "a" "1", ⟨[⟨[]⟩]⟩⟩ ∧
      ∀ tr ∈ (Run (Run (Run {} "BEGIN").2 "SET a 1").2 "GET a").2.Transactions.transactions,
        ∀ c ∈ tr.commands, (∃ x, c = .set x) ∨ (∃ x, c = .unset x)) :=
  ⟨⟨by decide, by decide, Reachable.step _ _ (Reachable.step _ _ (Reachable.step _ _ Reachable.init))⟩,
    C18_only_mutations_are_logged _ "get a" "get" ["a"] (by decide) (by decide) _
      (Reachable.step _ _ (Reachable.step _ _ (Reachable.step _ _ Reachable.init)))⟩

/-! ## Letter case of the keyword -/

theorem map_upper_of_forall₂ (upper : Char → Char) (l1 l2 : List Char)
    (h : List.Forall₂ (fun c d => upper c = upper d) l1 l2) :
    l1.map upper = l2.map upper := by
  induction h with
  | nil => rfl
  | cons hcd _ ih => simp only [List.map_cons, hcd, ih]

theorem ToUpperWith_of_caseVariant (upper : Char → Char) (a b : String)
    (h : caseVariant upper a b) : ToUpperWith upper a = ToUpperWith upper b := by
  unfold ToUpperWith
  rw [map_upper_of_forall₂ upper a.data b.data h]

theorem RunWith_SET_line (upper : Char → Char) (st : State) (kw k v : String)
    (hkw : String.mk (kw.data.map upper) = "SET") (hs : spaceFree kw) (hk : spaceFree k)
    (hv : spaceFree v) :
    (RunWith upper st (kw ++ " " ++ k ++ " " ++ v)).2 =
      ⟨st.Storage.insert k v,
        st.Transactions.AddCommand (.set ((Set.mk k v "" false).Execute st.Storage).2.1)⟩ := by
  rw [RunWith_eq_switch upper st _ kw [k, v] (Split_two kw k v hs hk hv), ToUpperWith, hkw,
    switch_SET]

/-- C14, as stated, fails.  The Kelvin sign U+212A is an upper-case letter
whose lower-case form is `k`: Go's `strings.ToLower` maps it to `k` and
`strings.EqualFold` holds the two equal, while `strings.ToUpper` keeps it as
it is.  So `rollback` is a letter-case variant of the token `ROLLBAC` followed
by the Kelvin sign; yet with one transaction open `Run` answers `rollback` as
a `ROLLBACK` (the store and the stack change, the returned string is empty)
and the other line as an unknown command (nothing changes).  The characters
of the two lines are ASCII letters and the Kelvin sign, on which `ToUpper` is
Go's `strings.ToUpper`. -/
theorem C14_kelvin_sign_keyword_not_recognised :
    "ROLLBAC\u212A".data = "ROLLBAC".data ++ [Char.ofNat 0x212A] ∧
    "rollback".data = "rollbac".data ++ [Char.ofNat 0x6B] ∧
    caseVariant Char.toUpper "ROLLBAC" "rollbac" ∧
    Run ⟨(∅ : Store).insert "a" "1", ⟨[⟨[.set ⟨"a", "1", "", false⟩]⟩]⟩⟩ "ROLLBAC\u212A" =
      ({ result := "ErrUnknownCommand (ROLLBAC\u212A): unknown command, please refer to help" },
        ⟨(∅ : Store).insert "a" "1", ⟨[⟨[.set ⟨"a", "1", "", false⟩]⟩]⟩⟩) ∧
    Run ⟨(∅ : Store).insert "a" "1", ⟨[⟨[.set ⟨"a", "1", "", false⟩]⟩]⟩⟩ "rollback" =
      ({}, ⟨∅, ⟨[]⟩⟩) ∧
    (Run ⟨(∅ : Store).insert "a" "1", ⟨[⟨[.set ⟨"a", "1", "", false⟩]⟩]⟩⟩
        "ROLLBAC\u212A").1.result ≠
      (Run ⟨(∅ : Store).insert "a" "1", ⟨[⟨[.set ⟨"a", "1", "", false⟩]⟩]⟩⟩
        "rollback").1.result ∧
    (Run ⟨(∅ : Store).insert "a" "1", ⟨[⟨[.set ⟨"a", "1", "", false⟩]⟩]⟩⟩
        "ROLLBAC\u212A").2 ≠
      (Run ⟨(∅ : Store).insert "a" "1", ⟨[⟨[.set ⟨"a", "1", "", false⟩]⟩]⟩⟩ "rollback").2 := by
  decide

/-- C14, amended: take any case table `upper` for `strings.ToUpper`.  When two
lines split into the same tokens except that the first token of the one and
the first token of the other have the same length and, position by position,
characters with the same upper-case form, `Run` on the one and on the other,
from the same state, return the same values, print the same lines and leave
the same store and transaction stack.  The arguments stay case-sensitive: a
`SET` binds the key exactly as written to the value exactly as written, leaves
every other key `k2` (a letter-case variant of the key too) as it was, and two
different values `v1`, `v2` (letter-case variants of each other too) give
different stores. -/
theorem C14_keyword_case_insensitive (upper : Char → Char) (st : State)
    (line1 line2 a0 b0 : String) (params : List String)
    (h1 : Split line1 = a0 :: params) (h2 : Split line2 = b0 :: params)
    (hv : caseVariant upper a0 b0)
    (kw k1 k2 v1 v2 : String) (hkw : String.mk (kw.data.map upper) = "SET")
    (hs : spaceFree kw) (hk1 : spaceFree k1) (hv1 : spaceFree v1) (hv2 : spaceFree v2)
    (hk : k2 ≠ k1) (hvv : v1 ≠ v2) :
    RunWith upper st line1 = RunWith upper st line2 ∧
    (RunWith upper st (kw ++ " " ++ k1 ++ " " ++ v1)).2.Storage.lookup k1 = some v1 ∧
    (RunWith upper st (kw ++ " " ++ k1 ++ " " ++ v1)).2.Storage.lookup k2
      = st.Storage.lookup k2 ∧
    (RunWith upper st (kw ++ " " ++ k1 ++ " " ++ v1)).2.Storage ≠
      (RunWith upper st (kw ++ " " ++ k1 ++ " " ++ v2)).2.Storage := by
  refine ⟨?_, ?_, ?_, ?_⟩
  · rw [RunWith_eq_switch upper st line1 a0 params h1,
      RunWith_eq_switch upper st line2 b0 params h2, ToUpperWith_of_caseVariant upper a0 b0 hv]
  · rw [RunWith_SET_line upper st kw k1 v1 hkw hs hk1 hv1]
    exact Finmap.lookup_insert _
  · rw [RunWith_SET_line upper st kw k1 v1 hkw hs hk1 hv1]
    exact Finmap.lookup_insert_of_ne _ hk
  · rw [RunWith_SET_line upper st kw k1 v1 hkw hs hk1 hv1,
      RunWith_SET_line upper st kw k1 v2 hkw hs hk1 hv2]
    intro e
    have e1 : (st.Storage.insert k1 v1).lookup k1 = (st.Storage.insert k1 v2).lookup k1 :=
      congrArg (fun m => Finmap.lookup k1 m) e
    rw [Finmap.lookup_insert, Finmap.lookup_insert] at e1
    exact hvv (Option.some.inj e1)

theorem C14_keyword_case_insensitive_witness :
    (Split "b\u00e9gin x" = "b\u00e9gin" :: ["x"] ∧
      Split "B\u00c9gIN x" = "B\u00c9gIN" :: ["x"] ∧
      caseVariant (fun c => if c = Char.ofNat 233 then Char.ofNat 201 else c.toUpper)
        "b\u00e9gin" "B\u00c9gIN" ∧
      String.mk ("sEt".data.map
        (fun c => if c = Char.ofNat 233 then Char.ofNat 201 else c.toUpper)) = "SET" ∧
      spaceFree "sEt" ∧ spaceFree "a" ∧ spaceFree "x" ∧ spaceFree "X" ∧
      "A" ≠ "a" ∧ "x" ≠ "X") ∧
    (RunWith (fun c => if c = Char.ofNat 233 then Char.ofNat 201 else c.toUpper)
        ⟨(∅ : Store).insert "A" "0", ⟨[⟨[]⟩]⟩⟩ "b\u00e9gin x" =
      RunWith (fun c => if c = Char.ofNat 233 then Char.ofNat 201 else c.toUpper)
        ⟨(∅ : Store).insert "A" "0", ⟨[⟨[]⟩]⟩⟩ "B\u00c9gIN x" ∧
      (RunWith (fun c => if c = Char.ofNat 233 then Char.ofNat 201 else c.toUpper)
        ⟨(∅ : Store).insert "A" "0", ⟨[⟨[]⟩]⟩⟩
        ("sEt" ++ " " ++ "a" ++ " " ++ "x")).2.Storage.lookup "a" = some "x" ∧
      (RunWith (fun c => if c = Char.ofNat 233 then Char.ofNat 201 else c.toUpper)
        ⟨(∅ : Store).insert "A" "0", ⟨[⟨[]⟩]⟩⟩
        ("sEt" ++ " " ++ "a" ++ " " ++ "x")).2.Storage.lookup "A"
        = ((∅ : Store).insert "A" "0").lookup "A" ∧
      (RunWith (fun c => if c = Char.ofNat 233 then Char.ofNat 201 else c.toUpper)
        ⟨(∅ : Store).insert "A" "0", ⟨[⟨[]⟩]⟩⟩
        ("sEt" ++ " " ++ "a" ++ " " ++ "x")).2.Storage ≠
      (RunWith (fun c => if c = Char.ofNat 233 then Char.ofNat 201 else c.toUpper)
        ⟨(∅ : Store).insert "A" "0", ⟨[⟨[]⟩]⟩⟩
        ("sEt" ++ " " ++ "a" ++ " " ++ "X")).2.Storage) :=
  ⟨by decide,
    C14_keyword_case_insensitive _ _ "b\u00e9gin x" "B\u00c9gIN x" "b\u00e9gin" "B\u00c9gIN"
      ["x"] (by decide) (by decide) (by decide) "sEt" "a" "A" "x" "X"
      (by decide) (by decide) (by decide) (by decide) (by decide) (by decide) (by decide)⟩

/-! ## Unwinding nested blocks -/

theorem unwind_snoc (ts : List Transaction) (tr : Transaction) (s : Store) :
    unwind (ts ++ [tr]) s = unwind ts (tr.Rollback s) := by
  simp [unwind, List.foldr_append]

theorem Run_isBegin (st : State) (line : String) (h : isBegin line = true) :
    (Run st line).2 = ⟨st.Storage, st.Transactions.Begin⟩ := by
  unfold isBegin at h
  cases hs : Split line with
  | nil => exact absurd hs (Split_ne_nil line)
  | cons a0 params =>
    rw [hs] at h
    simp only [beq_iff_eq] at h
    rw [Run_eq_switch st line a0 params hs, h, switch_BEGIN]

theorem Run_isQuery (st : State) (line : String) (h : isQuery line = true) :
    (Run st line).2 = st := by
  unfold isQuery at h
  cases hs : Split line with
  | nil => exact absurd hs (Split_ne_nil line)
  | cons a0 params =>
    rw [hs] at h
    simp only [Bool.and_eq_true, Bool.or_eq_true, beq_iff_eq] at h
    rw [Run_eq_switch st line a0 params hs]
    exact switch_query_state st _ params h.1

theorem isBegin_of_isMutation (line : String) (h : isMutation line = true) :
    isBegin line = false := by
  unfold isMutation at h
  unfold isBegin
  cases hs : Split line with
  | nil => rfl
  | cons a0 params =>
    rw [hs] at h
    simp only [Bool.or_eq_true, Bool.and_eq_true, beq_iff_eq] at h
    rcases h with ⟨e, _⟩ | ⟨e, _⟩ <;> simp [e]

theorem isBegin_of_isQuery (line : String) (h : isQuery line = true) :
    isBegin line = false := by
  unfold isQuery at h
  unfold isBegin
  cases hs : Split line with
  | nil => rfl
  | cons a0 params =>
    rw [hs] at h
    simp only [Bool.and_eq_true, Bool.or_eq_true, beq_iff_eq] at h
    rcases h.1 with e | e <;> simp [e]

theorem Run_mutation_nil (s : Store) (line : String) (h : isMutation line = true) :
    (Run ⟨s, ⟨[]⟩⟩ line).2.Transactions = ⟨[]⟩ := by
  unfold isMutation at h
  cases hs : Split line with
  | nil => exact absurd hs (Split_ne_nil line)
  | cons a0 params =>
    rw [hs] at h
    simp only [Bool.or_eq_true, Bool.and_eq_true, beq_iff_eq, decide_eq_true_eq] at h
    rw [Run_eq_switch _ line a0 params hs]
    rcases h with ⟨hkw, _⟩ | ⟨hkw, _⟩
    · rw [hkw]
      rcases switch_SET_cases ⟨s, ⟨[]⟩⟩ params with e | ⟨k, v, e⟩
      · rw [e]
      · rw [e]; dsimp only; rw [AddCommand_nil]
    · rw [hkw]
      rcases switch_UNSET_cases ⟨s, ⟨[]⟩⟩ params with e | ⟨k, e⟩
      · rw [e]
      · rw [e]; dsimp only; rw [AddCommand_nil]

/-- One line of a block, run with a transaction open: the stack stays
non-empty, grows by one exactly on a `BEGIN`, and unwinding it gives the same
store as before the line. -/
theorem Run_block_line_snoc (s : Store) (ts : List Transaction) (tr : Transaction)
    (line : String) (h : isMutation line = true ∨ isQuery line = true ∨ isBegin line = true) :
    ∃ ts1 tr1 s1, (Run ⟨s, ⟨ts ++ [tr]⟩⟩ line).2 = ⟨s1, ⟨ts1 ++ [tr1]⟩⟩ ∧
      (ts1 ++ [tr1]).length = (ts ++ [tr]).length + (if isBegin line = true then 1 else 0) ∧
      unwind (ts1 ++ [tr1]) s1 = unwind (ts ++ [tr]) s := by
  rcases h with h | h | h
  · obtain ⟨tr1, s1, e, hr⟩ := Run_mutation_snoc s ts tr line h
    refine ⟨ts, tr1, s1, e, ?_, ?_⟩
    · simp [isBegin_of_isMutation line h]
    · rw [unwind_snoc, unwind_snoc, hr]
  · refine ⟨ts, tr, s, Run_isQuery _ line h, ?_, rfl⟩
    simp [isBegin_of_isQuery line h]
  · refine ⟨ts ++ [tr], ⟨[]⟩, s, ?_, ?_, ?_⟩
    · rw [Run_isBegin _ line h]; rfl
    · simp [h]
    · rw [unwind_snoc]; rfl

theorem runLines_block_snoc (lines : List String)
    (h : ∀ l ∈ lines, isMutation l = true ∨ isQuery l = true ∨ isBegin l = true)
    (s : Store) (ts : List Transaction) (tr : Transaction) :
    ∃ ts1 tr1 s1, runLines ⟨s, ⟨ts ++ [tr]⟩⟩ lines = ⟨s1, ⟨ts1 ++ [tr1]⟩⟩ ∧
      (ts1 ++ [tr1]).length = (ts ++ [tr]).length + lines.countP isBegin ∧
      unwind (ts1 ++ [tr1]) s1 = unwind (ts ++ [tr]) s := by
  induction lines generalizing s ts tr with
  | nil => exact ⟨ts, tr, s, rfl, by simp, rfl⟩
  | cons l ls ih =>
    obtain ⟨ts1, tr1, s1, e1, hl1, hu1⟩ :=
      Run_block_line_snoc s ts tr l (h l (List.mem_cons_self l ls))
    obtain ⟨ts2, tr2, s2, e2, hl2, hu2⟩ :=
      ih (fun x hx => h x (List.mem_cons_of_mem l hx)) s1 ts1 tr1
    refine ⟨ts2, tr2, s2, ?_, ?_, hu2.trans hu1⟩
    · rw [runLines_cons, e1, e2]
    · rw [hl2, hl1, List.countP_cons]
      omega

/-- A block run with no transaction open: the depth afterwards is the number
of `BEGIN` lines, and unwinding the stack gives the store as it was just
before the first `BEGIN` (after all the lines, when there is no `BEGIN`). -/
theorem runLines_block_nil (lines : List String)
    (h : ∀ l ∈ lines, isMutation l = true ∨ isQuery l = true ∨ isBegin l = true)
    (s : Store) :
    ∃ ts1 s1, runLines ⟨s, ⟨[]⟩⟩ lines = ⟨s1, ⟨ts1⟩⟩ ∧
      ts1.length = lines.countP isBegin ∧
      unwind ts1 s1 =
        (runLines ⟨s, ⟨[]⟩⟩ (lines.takeWhile (fun l => !isBegin l))).Storage := by
  induction lines generalizing s with
  | nil => exact ⟨[], s, rfl, rfl, rfl⟩
  | cons l ls ih =>
    have hls : ∀ x ∈ ls, isMutation x = true ∨ isQuery x = true ∨ isBegin x = true :=
      fun x hx => h x (List.mem_cons_of_mem l hx)
    by_cases hb : isBegin l = true
    · obtain ⟨ts1, tr1, s1, e1, hl1, hu1⟩ := runLines_block_snoc ls hls s [] ⟨[]⟩
      refine ⟨ts1 ++ [tr1], s1, ?_, ?_, ?_⟩
      · rw [runLines_cons, Run_isBegin _ l hb]
        exact e1
      · rw [hl1, List.countP_cons]
        simp [hb]
        omega
      · rw [hu1, List.takeWhile_cons]
        simp [hb, unwind, Transaction.Rollback, runLines]
    · have hstack : (Run ⟨s, ⟨[]⟩⟩ l).2.Transactions = ⟨[]⟩ := by
        rcases h l (List.mem_cons_self l ls) with hm | hq | hb1
        · exact Run_mutation_nil s l hm
        · rw [Run_isQuery _ l hq]
        · exact absurd hb1 hb
      obtain ⟨s0, e0⟩ : ∃ s0, (Run ⟨s, ⟨[]⟩⟩ l).2 = ⟨s0, ⟨[]⟩⟩ := by
        generalize (Run ⟨s, ⟨[]⟩⟩ l).2 = r at hstack
        obtain ⟨a, b⟩ := r
        exact ⟨a, by simp only at hstack; rw [hstack]⟩
      obtain ⟨ts1, s1, e1, hl1, hu1⟩ := ih hls s0
      refine ⟨ts1, s1, ?_, ?_, ?_⟩
      · rw [runLines_cons, e0]
        exact e1
      · rw [hl1, List.countP_cons]
        simp [hb]
      · rw [hu1, List.takeWhile_cons]
        simp only [hb, Bool.not_false, if_true]
        rw [runLines_cons, e0]

theorem runLines_rollbacks (n : Nat) :
    ∀ (ts : List Transaction) (s : Store), ts.length = n →
      runLines ⟨s, ⟨ts⟩⟩ (List.replicate n "ROLLBACK") = ⟨unwind ts s, ⟨[]⟩⟩ := by
  induction n with
  | zero =>
    intro ts s hn
    rw [List.length_eq_zero] at hn
    subst hn
    rfl
  | succ n ih =>
    intro ts s hn
    rcases List.eq_nil_or_concat ts with h0 | ⟨ts0, tr, h0⟩
    · subst h0; simp at hn
    · subst h0
      rw [List.concat_eq_append] at hn ⊢
      rw [List.replicate_succ, runLines_cons, Run_ROLLBACK_snoc, unwind_snoc]
      exact ih ts0 _ (by simpa using hn)

theorem runLines_rollbacks_depth (i : Nat) :
    ∀ (ts : List Transaction) (s : Store), i ≤ ts.length →
      (runLines ⟨s, ⟨ts⟩⟩ (List.replicate i "ROLLBACK")).Transactions.transactions.length
        = ts.length - i := by
  induction i with
  | zero => intro ts s _; rfl
  | succ i ih =>
    intro ts s hi
    rcases List.eq_nil_or_concat ts with h0 | ⟨ts0, tr, h0⟩
    · subst h0; simp at hi
    · subst h0
      rw [List.concat_eq_append] at hi ⊢
      rw [List.replicate_succ, runLines_cons, Run_ROLLBACK_snoc]
      have hi0 : i ≤ ts0.length := by simpa using hi
      rw [ih ts0 _ hi0]
      simp

theorem Rollback_ok_of_pos (t : NestedTransactions) (s : Store)
    (h : 1 ≤ t.transactions.length) : (t.Rollback s).1 = none := by
  obtain ⟨ts⟩ := t
  rcases List.eq_nil_or_concat ts with h0 | ⟨ts0, tr, h0⟩
  · subst h0; simp at h
  · subst h0
    rw [List.concat_eq_append, Rollback_snoc]

/-- C19: start with no transaction open and run any sequence of lines that
are `SET`, `UNSET`, `GET`, `NUMEQUALTO` (each with enough arguments) or
`BEGIN`; let `m` be the number of `BEGIN` lines.  Then `m` lines `ROLLBACK`
end with the stack empty and with the store exactly as it was after the lines
that come before the first `BEGIN`; and each of these rollbacks meets a
non-empty stack: `Rollback` returns no error and `Run` prints nothing. -/
theorem C19_full_unwinding (s : Store) (lines : List String)
    (h : ∀ l ∈ lines, isMutation l = true ∨ isQuery l = true ∨ isBegin l = true) :
    runLines ⟨s, ⟨[]⟩⟩ (lines ++ List.replicate (lines.countP isBegin) "ROLLBACK") =
      ⟨(runLines ⟨s, ⟨[]⟩⟩ (lines.takeWhile (fun l => !isBegin l))).Storage, ⟨[]⟩⟩ ∧
    ∀ i, i < lines.countP isBegin →
      ((runLines ⟨s, ⟨[]⟩⟩ (lines ++ List.replicate i "ROLLBACK")).Transactions.Rollback
        (runLines ⟨s, ⟨[]⟩⟩ (lines ++ List.replicate i "ROLLBACK")).Storage).1 = none ∧
      (Run (runLines ⟨s, ⟨[]⟩⟩ (lines ++ List.replicate i "ROLLBACK")) "ROLLBACK").1
        = {} := by
  obtain ⟨ts1, s1, e1, hl1, hu1⟩ := runLines_block_nil lines h s
  refine ⟨?_, ?_⟩
  · rw [runLines_append, e1, ← hl1, runLines_rollbacks ts1.length ts1 s1 rfl, hu1]
  · intro i hi
    have hd : 1 ≤ (runLines ⟨s, ⟨[]⟩⟩
        (lines ++ List.replicate i "ROLLBACK")).Transactions.transactions.length := by
      rw [runLines_append, e1, runLines_rollbacks_depth i ts1 s1 (by omega)]
      omega
    have hok := Rollback_ok_of_pos _
      (runLines ⟨s, ⟨[]⟩⟩ (lines ++ List.replicate i "ROLLBACK")).Storage hd
    refine ⟨hok, ?_⟩
    rw [Run_ROLLBACK, hok]

theorem C19_full_unwinding_witness :
    (∀ l ∈ ["SET a 1", "BEGIN", "SET a 2", "GET a", "BEGIN", "UNSET a", "NUMEQUALTO 2",
        "SET b 3"],
      isMutation l = true ∨ isQuery l = true ∨ isBegin l = true) ∧
    runLines ⟨(∅ : Store).insert "c" "0", ⟨[]⟩⟩
      (["SET a 1", "BEGIN", "SET a 2", "GET a", "BEGIN", "UNSET a", "NUMEQUALTO 2", "SET b 3"] ++
        List.replicate (["SET a 1", "BEGIN", "SET a 2", "GET a", "BEGIN", "UNSET a",
          "NUMEQUALTO 2", "SET b 3"].countP isBegin) "ROLLBACK") =
      ⟨(runLines ⟨(∅ : Store).insert "c" "0", ⟨[]⟩⟩
        (["SET a 1", "BEGIN", "SET a 2", "GET a", "BEGIN", "UNSET a", "NUMEQUALTO 2",
          "SET b 3"].takeWhile (fun l => !isBegin l))).Storage, ⟨[]⟩⟩ :=
  ⟨by decide, (C19_full_unwinding _ _ (by decide)).1⟩

/-! ## No index is out of range -/

theorem RollbackFrom_eq (tr : Transaction) (n : Nat) (hn : n ≤ tr.commands.length)
    (s : Store) :
    tr.RollbackFrom n s = some ((tr.commands.take n).foldr (fun cmd acc => cmd.Undo acc) s) := by
  induction n generalizing s with
  | zero => rfl
  | succ i ih =>
    have hi : i < tr.commands.length := by omega
    have hget : index tr.commands i = some (tr.commands.get ⟨i, hi⟩) := by
      simp [index, List.getElem?_eq_getElem hi]
    have htake : tr.commands.take (i + 1) = tr.commands.take i ++ [tr.commands.get ⟨i, hi⟩] := by
      rw [List.take_succ, List.getElem?_eq_getElem hi]
      rfl
    rw [Transaction.RollbackFrom, hget]
    simp only
    rw [ih (by omega), htake, List.foldr_append]
    rfl

theorem Transaction.RollbackChecked_eq_Rollback (tr : Transaction) (s : Store) :
    tr.RollbackChecked s = some (tr.Rollback s) := by
  rw [Transaction.RollbackChecked, RollbackFrom_eq tr _ (Nat.le_refl _), List.take_length]
  rfl

theorem getLastChecked_eq (t : NestedTransactions) : t.getLastChecked = some t.getLast := by
  obtain ⟨ts⟩ := t
  rcases List.eq_nil_or_concat ts with h0 | ⟨ts0, tr, h0⟩
  · subst h0; rfl
  · subst h0
    simp [NestedTransactions.getLastChecked, NestedTransactions.getLast, index]

theorem AddCommandChecked_eq (t : NestedTransactions) (cmd : Executable) :
    t.AddCommandChecked cmd = some (t.AddCommand cmd) := by
  unfold NestedTransactions.AddCommandChecked NestedTransactions.AddCommand
  rw [getLastChecked_eq]
  cases t.getLast <;> rfl

theorem popLastChecked_eq (t : NestedTransactions) : t.popLastChecked = some t.popLast := by
  obtain ⟨ts⟩ := t
  rcases List.eq_nil_or_concat ts with h0 | ⟨ts0, tr, h0⟩
  · subst h0; rfl
  · subst h0
    simp [NestedTransactions.popLastChecked, NestedTransactions.popLast, index, slice]

theorem NestedTransactions.RollbackChecked_eq_stack_Rollback (t : NestedTransactions) (s : Store) :
    t.RollbackChecked s = some (t.Rollback s) := by
  unfold NestedTransactions.RollbackChecked NestedTransactions.Rollback
  rw [popLastChecked_eq]
  rcases t.popLast with ⟨e | tr, t1⟩
  · rfl
  · simp only [Transaction.RollbackChecked_eq_Rollback]

theorem switchChecked_eq (st : State) (cmd : String) (params : List String) :
    Run.switchChecked st cmd params = some (Run.switch st cmd params) := by
  by_cases hk : cmd ∈ keywords
  · simp only [keywords, List.mem_cons, List.mem_singleton, List.not_mem_nil, or_false] at hk
    rcases hk with rfl | rfl | rfl | rfl | rfl | rfl | rfl | rfl | rfl | rfl
    · simp [Run.switchChecked, Run.switch]
    · simp [Run.switchChecked, Run.switch]
    · simp [Run.switchChecked, Run.switch]
    · match params with
      | [] => simp [Run.switchChecked, Run.switch]
      | k :: rest => simp [Run.switchChecked, Run.switch, index]
    · match params with
      | [] => simp [Run.switchChecked, Run.switch]
      | [k] => simp [Run.switchChecked, Run.switch]
      | k :: v :: rest =>
        have hl : ¬ (rest.length + 1 + 1 < 2) := by omega
        simp [Run.switchChecked, Run.switch, index, AddCommandChecked_eq, hl]
    · match params with
      | [] => simp [Run.switchChecked, Run.switch]
      | k :: rest => simp [Run.switchChecked, Run.switch, index]
    · match params with
      | [] => simp [Run.switchChecked, Run.switch]
      | k :: rest => simp [Run.switchChecked, Run.switch, index, AddCommandChecked_eq]
    · simp [Run.switchChecked, Run.switch]
    · simp only [Run.switchChecked, Run.switch, NestedTransactions.RollbackChecked_eq_stack_Rollback]
      simp
      split <;> rfl
    · simp [Run.switchChecked, Run.switch]
      split <;> rfl
  · rw [switch_unknown st cmd params hk]
    simp only [keywords, List.mem_cons, List.mem_singleton, List.not_mem_nil, or_false,
      not_or] at hk
    obtain ⟨h1, h2, h3, h4, h5, h6, h7, h8, h9, h10⟩ := hk
    simp [Run.switchChecked, h1, h2, h3, h4, h5, h6, h7, h8, h9, h10]

theorem RunChecked_eq (st : State) (line : String) :
    RunChecked st line = some (Run st line) := by
  cases hs : Split line with
  | nil => exact absurd hs (Split_ne_nil line)
  | cons a0 params =>
    rw [Run_eq_switch st line a0 params hs, ← switchChecked_eq]
    simp [RunChecked, hs, index, slice]

/-- C20: with every index and slice expression of `Run`, `getLast`,
`popLast` and `Transaction.Rollback` looked up at run time, `Run` never meets
an access out of range: on every state and every line it ends, with the
outcome of `Run`.  Splitting a line on single spaces always gives at least
one token (the empty line gives one empty token), and the empty line is
answered as an unknown command whose token is empty, with the state kept. -/
theorem C20_run_never_out_of_range (st : State) (line : String) :
    RunChecked st line = some (Run st line) ∧
    1 ≤ (Split line).length ∧
    Split "" = [""] ∧
    Run st "" =
      ({ result := "ErrUnknownCommand (): unknown command, please refer to help" }, st) := by
  refine ⟨RunChecked_eq st line, List.length_pos.mpr (Split_ne_nil line), by decide, ?_⟩
  rw [Run_eq_switch st "" "" [] (by decide), switch_unknown st _ [] (by decide)]
  rfl

end Db
